import Mathlib

/-!
Verification of the adresu-plugin filter pipeline against its
natural-language specification.  The Go sources are shallowly embedded:
pure functions become Lean functions, stateful filters become explicit
state-passing functions, Go float64 rate/ratio arithmetic is modelled in
ℚ, Go machine integers as Int/Nat, and wall-clock time as an explicit
numeric parameter threaded through each call.
-/

namespace Adresu

/-- A Nostr event as the filter pipeline inspects it (the go-nostr
`Event` fields used by the filters: id, pubkey, kind, created_at,
content, tags). -/
structure NEvent where
  id : String
  pubkey : String
  kind : Int
  createdAt : Int
  content : String
  tags : List (List String)
deriving Repr, DecidableEq

/-- Verdict of a filter stage (policy.Result: Action accept/reject plus
a human-readable message). -/
inductive Result where
  | accept : Result
  | reject : String → Result
deriving Repr, DecidableEq

/-- Functional update of a string-keyed map (models a mutating cache
insert, `cache.Add(k, v)`). -/
def updFn (m : String → Option α) (k : String) (v : α) : String → Option α :=
  fun x => if x = k then some v else m x

/-! ### ASCII case utilities

`strings.EqualFold` / `strings.ToLower` restricted to ASCII.  The Go
originals do full Unicode simple folding; every pubkey and tag name the
claims are about is ASCII, where this model agrees with Go. -/

/-- Is `c` an ASCII uppercase letter (codes 65..90, i.e. A..Z)? -/
def isUpperAscii (c : Char) : Bool := 65 ≤ c.toNat && c.toNat ≤ 90

/-- Is `c` an ASCII lowercase letter (codes 97..122, i.e. a..z)? -/
def isLowerAscii (c : Char) : Bool := 97 ≤ c.toNat && c.toNat ≤ 122

/-- Case-fold equality of two characters (ASCII restriction of the fold
used by `strings.EqualFold`). -/
def charFoldEq (a b : Char) : Bool :=
  a == b || (isUpperAscii a && a.toNat + 32 == b.toNat)
    || (isUpperAscii b && b.toNat + 32 == a.toNat)

/-- Pointwise case-fold equality of two character lists. -/
def listFoldEq : List Char → List Char → Bool
  | [], [] => true
  | x :: xs, y :: ys => charFoldEq x y && listFoldEq xs ys
  | _, _ => false

/-- `strings.EqualFold` (ASCII model): equality up to case. -/
def stringEqualFold (a b : String) : Bool := listFoldEq a.toList b.toList

/-- Lower-case one character (ASCII part of `strings.ToLower`). -/
def toLowerChar (c : Char) : Char :=
  if isUpperAscii c then Char.ofNat (c.toNat + 32) else c

/-- Upper-case one character (ASCII part of `strings.ToUpper`). -/
def toUpperChar (c : Char) : Char :=
  if isLowerAscii c then Char.ofNat (c.toNat - 32) else c

/-- `strings.ToLower` (ASCII model). -/
def strToLower (s : String) : String := ⟨s.toList.map toLowerChar⟩

/-- `strings.ToUpper` (ASCII model). -/
def strToUpper (s : String) : String := ⟨s.toList.map toUpperChar⟩

/-! ### Repost-abuse filter (policy/repost_abuse_filter.go) -/

/-- `UserActivityStats`: per-pubkey posting behaviour.  `lastEventTime`
is a timestamp; `0` models Go's zero `time.Time`. -/
structure UserActivityStats where
  originalPosts : Nat
  reposts : Nat
  lastEventTime : Int
deriving Repr, DecidableEq

/-- `config.RepostAbuseFilterConfig` (the fields `Check` reads). -/
structure RepostAbuseCfg where
  enabled : Bool
  maxRatio : ℚ
  minEvents : Int
  resetDuration : Int
  countRejectAsActivity : Bool
  requireNIP21InQuote : Bool
deriving Repr, DecidableEq

/-- `NewRepostAbuseFilter` clamps `MaxRatio` into [0, 1]; the rest of
the configuration is taken as is. -/
def newRepostAbuseFilter (cfg : RepostAbuseCfg) : RepostAbuseCfg :=
  { cfg with maxRatio :=
      if cfg.maxRatio < 0 then 0 else if cfg.maxRatio > 1 then 1 else cfg.maxRatio }

/-- `hasTag`: does the event carry a tag whose first element equals
`tagName` up to case (`strings.EqualFold`)? -/
def hasTag (ev : NEvent) (tagName : String) : Bool :=
  ev.tags.any fun t =>
    match t with
    | [] => false
    | x :: _ => stringEqualFold x tagName

/-! The NIP-21 content pattern `\b(naddr1|nevent1|note1)[0-9a-z]+\b`
(Go regexp, RE2).  `\b` is the ASCII word boundary (word characters are
[0-9A-Za-z_]); a match exists iff at some position preceded by a
non-word character (or the start) one of the three literals occurs,
followed by a non-empty maximal run of [0-9a-z] whose successor is a
non-word character or the end of the string. -/

/-- RE2 ASCII word character `\w` = [0-9A-Za-z_]. -/
def isWordChar (c : Char) : Bool :=
  (48 ≤ c.toNat && c.toNat ≤ 57) || (65 ≤ c.toNat && c.toNat ≤ 90)
    || (97 ≤ c.toNat && c.toNat ≤ 122) || c == '_'

/-- Character class `[0-9a-z]`. -/
def isLowerAlnum (c : Char) : Bool :=
  (48 ≤ c.toNat && c.toNat ≤ 57) || (97 ≤ c.toNat && c.toNat ≤ 122)

/-- Strip `p` from the front of `cs`; `none` when `cs` does not start
with `p`. -/
def stripPre : List Char → List Char → Option (List Char)
  | [], cs => some cs
  | _, [] => none
  | p :: ps, c :: cs => if c = p then stripPre ps cs else none

/-- After one of the literals: a non-empty `[0-9a-z]+` run whose end is
a word boundary. -/
def nip21Tail (cs : List Char) : Bool :=
  let run := cs.takeWhile isLowerAlnum
  let rest := cs.dropWhile isLowerAlnum
  run.length ≥ 1 &&
    (match rest with
     | [] => true
     | c :: _ => !isWordChar c)

/-- Does one of the three NIP-21 literals followed by a valid tail start
exactly at `cs`? -/
def nip21Here (cs : List Char) : Bool :=
  ["naddr1".toList, "nevent1".toList, "note1".toList].any fun p =>
    match stripPre p cs with
    | some rest => nip21Tail rest
    | none => false

/-- Scan all positions; `prev` is the character before the current
position (`none` at the start), used for the leading `\b`. -/
def nip21Scan (prev : Option Char) : List Char → Bool
  | [] => false
  | c :: rest =>
    ((match prev with
      | none => true
      | some p => !isWordChar p) && nip21Here (c :: rest))
    || nip21Scan (some c) rest

/-- `contentHasNIP21Ref`: the content matches
`\b(naddr1|nevent1|note1)[0-9a-z]+\b`. -/
def contentHasNIP21Ref (s : String) : Bool := nip21Scan none s.toList

/-- `isRepostNIP18`: classify an event as repost per NIP-18; returns
`(true, classification)` for kinds 6 (`"kind6"`), 16 (`"kind16"`) and
for a kind-1 note with a `q` tag (`"quote1"`), subject to the
`RequireNIP21InQuote` content condition. -/
def isRepostNIP18 (cfg : RepostAbuseCfg) (ev : NEvent) : Bool × String :=
  if ev.kind = 6 then (true, "kind6")
  else if ev.kind = 16 then (true, "kind16")
  else if ev.kind = 1 then
    if hasTag ev "q" &&
        (!cfg.requireNIP21InQuote || contentHasNIP21Ref ev.content) then
      (true, "quote1")
    else (false, "")
  else (false, "")

/-- The inactivity soft reset: zero both counters when a reset duration
is configured, the record has a real last-event time and more than
`resetDuration` has passed since it. -/
def softReset (cfg : RepostAbuseCfg) (now : Int) (s : UserActivityStats) :
    UserActivityStats :=
  if cfg.resetDuration > 0 && !(s.lastEventTime = 0) &&
      now - s.lastEventTime > cfg.resetDuration then
    { s with originalPosts := 0, reposts := 0 }
  else s

/-- The predictive ratio `(reposts + 1)/(total + 1)` computed by `Check`
(float64 in Go, ℚ here); the `predictedTotal > 0` guard is kept from
the source. -/
def predictedRatio (s : UserActivityStats) : ℚ :=
  let predictedTotal : Int := (s.originalPosts + s.reposts : Int) + 1
  if predictedTotal > 0 then
    ((s.reposts : ℚ) + 1) / ((s.originalPosts : ℚ) + (s.reposts : ℚ) + 1)
  else 0

/-- The user-facing rejection message of the repost filter (the Go
string interpolates the two percentages; the text is abbreviated
here). -/
def repostRejectMsg : String := "blocked: too many reposts."

/-- `RepostAbuseFilter.Check`: classify, enforce the predictive ratio,
and commit counters.  `stats` is the content of the per-pubkey LRU;
`now` stands for the single wall-clock reading of the call. -/
def repostAbuseCheck (cfg : RepostAbuseCfg)
    (stats : String → Option UserActivityStats) (now : Int) (ev : NEvent) :
    Result × (String → Option UserActivityStats) :=
  if !cfg.enabled then (Result.accept, stats)
  else if ev.kind ≠ 1 ∧ ev.kind ≠ 6 ∧ ev.kind ≠ 16 then (Result.accept, stats)
  else
    let s0 := (stats ev.pubkey).getD ⟨0, 0, 0⟩
    let statsCopy := softReset cfg now s0
    let isRep := (isRepostNIP18 cfg ev).1
    let shouldReject :=
      isRep &&
        decide ((statsCopy.originalPosts + statsCopy.reposts : Int) ≥ cfg.minEvents) &&
        decide (predictedRatio statsCopy ≥ cfg.maxRatio)
    let fresh0 := (stats ev.pubkey).getD ⟨0, 0, 0⟩
    let fresh1 := softReset cfg now fresh0
    let fresh2 :=
      if !shouldReject || cfg.countRejectAsActivity then
        { fresh1 with lastEventTime := now }
      else fresh1
    let fresh3 :=
      if !shouldReject then
        if isRep then { fresh2 with reposts := fresh2.reposts + 1 }
        else { fresh2 with originalPosts := fresh2.originalPosts + 1 }
      else fresh2
    (if shouldReject then Result.reject repostRejectMsg else Result.accept,
      updFn stats ev.pubkey fresh3)

/-- The stats the enforcement step works on: the recorded entry (empty
when absent) after the soft reset, exactly as step 1 of `Check`
computes it. -/
def repostEffStats (cfg : RepostAbuseCfg)
    (stats : String → Option UserActivityStats) (now : Int) (ev : NEvent) :
    UserActivityStats :=
  softReset cfg now ((stats ev.pubkey).getD ⟨0, 0, 0⟩)

/-- Run a sequence of events through the repost filter, collecting the
verdicts (all at one instant; the scenario uses `resetDuration = 0`). -/
def repostRunSeq (cfg : RepostAbuseCfg)
    (stats : String → Option UserActivityStats) :
    List NEvent → List Result
  | [] => []
  | ev :: rest =>
    let p := repostAbuseCheck cfg stats 0 ev
    p.1 :: repostRunSeq cfg p.2 rest

/-- Scenario 4 configuration: `max-ratio = 0.50`, `min-events = 4`. -/
def repostScenarioCfg : RepostAbuseCfg :=
  newRepostAbuseFilter ⟨true, 1/2, 4, 0, true, true⟩

/-- A kind-1 original from `bob`. -/
def bobNote : NEvent := ⟨"id", "bob", 1, 0, "hello", []⟩

/-- A kind-6 repost from `bob`. -/
def bobRepost6 : NEvent := ⟨"id", "bob", 6, 0, "", []⟩

/-- A kind-16 generic repost from `bob`. -/
def bobRepost16 : NEvent := ⟨"id", "bob", 16, 0, "", []⟩

/-- Scenario 4 event sequence: four originals, then reposts of kinds
6, 16, 6, 16. -/
def repostScenarioEvents : List NEvent :=
  [bobNote, bobNote, bobNote, bobNote,
   bobRepost6, bobRepost16, bobRepost6, bobRepost16]

/-- A kind-1 note from `dave` whose only tag is named `Q` (uppercase). -/
def evQupper : NEvent := ⟨"id", "dave", 1, 0, "quoted", [["Q", "x"]]⟩

/-- A loose-mode repost configuration (`require-nip21-in-quote` off),
mirroring the loose case of the repost filter tests. -/
def cfgQloose : RepostAbuseCfg := newRepostAbuseFilter ⟨true, 1, 2, 0, true, false⟩

/-- Configuration exercising the inactivity soft reset on a rejection:
`min-events = 0` (accepted by config validation, which only rejects
negative values), `max-ratio = 1`, `reset-duration = 10`. -/
def c9Cfg : RepostAbuseCfg := newRepostAbuseFilter ⟨true, 1, 0, 10, false, false⟩

/-- Recorded stats: `alice` has 5 originals and 5 reposts, last active
at time 1. -/
def c9Stats : String → Option UserActivityStats :=
  fun x => if x = "alice" then some ⟨5, 5, 1⟩ else none

/-- A kind-6 repost from `alice`. -/
def aliceRepost6 : NEvent := ⟨"id", "alice", 6, 0, "", []⟩

/-! ### Token bucket (golang.org/x/time/rate.Limiter as the filters use
it).  Rates and times are ℚ (the Go code uses float64 rates and
nanosecond timestamps); a freshly constructed limiter holds a full
burst. -/

/-- A token-bucket limiter: constant `limit` (tokens/sec) and `burst`,
mutable token count and last-refill time. -/
structure Limiter where
  limit : ℚ
  burst : Int
  tokens : ℚ
  last : ℚ
deriving Repr, DecidableEq

/-- `rate.NewLimiter(r, b)`. -/
def Limiter.new (r : ℚ) (b : Int) : Limiter := ⟨r, b, b, 0⟩

/-- `Limiter.Allow()` at time `now`: refill at rate `limit` capped at
`burst`, then admit iff a whole token is available.  x/time/rate
special-cases `limit = 0`: no refill ever happens and the initial
burst is consumed directly. -/
def Limiter.allow (l : Limiter) (now : ℚ) : Bool × Limiter :=
  if l.limit = 0 then
    if l.burst ≥ 1 then (true, { l with burst := l.burst - 1 }) else (false, l)
  else
    let tokens1 := min (l.burst : ℚ) (l.tokens + (now - l.last) * l.limit)
    if tokens1 ≥ 1 then (true, { l with tokens := tokens1 - 1, last := now })
    else (false, { l with tokens := tokens1, last := now })

/-! ### Rate-limiter stage (policy/rate_limiter_filter.go) -/

/-- `config.RateBy`. -/
inductive RateBy where
  | ip : RateBy
  | pubkey : RateBy
  | both : RateBy
deriving Repr, DecidableEq

/-- `config.RateLimitRule`. -/
structure RateLimitRule where
  kinds : List Int
  rate : ℚ
  burst : Int
  description : String
deriving Repr, DecidableEq

/-- `config.RateLimiterConfig` (fields `Check` reads; `By` is renamed
`rateBy` as `by` is reserved in Lean). -/
structure RateLimiterCfg where
  enabled : Bool
  rateBy : RateBy
  defaultRate : ℚ
  defaultBurst : Int
  rules : List RateLimitRule
deriving Repr, DecidableEq

/-- One step of the `NewRateLimiterFilter` construction loop: insert
rule `p.2` (with the stable id derived from its index `p.1`) for every
kind it mentions, overwriting earlier entries of the map. -/
def ruleStep (m : Int → Option (RateLimitRule × String))
    (p : Nat × RateLimitRule) : Int → Option (RateLimitRule × String) :=
  fun k => if k ∈ p.2.kinds then some (p.2, "rule-" ++ toString p.1) else m k

/-- `kindToRule` as `NewRateLimiterFilter` builds it: iterate the rules
in configuration order; each insert overwrites previous ones, so for a
kind mentioned by several rules the last one ends up in the map. -/
def kindToRule (rules : List RateLimitRule) :
    Int → Option (RateLimitRule × String) :=
  rules.enum.foldl ruleStep (fun _ => none)

/-- Recursive restatement of the same map (indices starting at `i`),
used to reason about `kindToRule` by induction. -/
def kindToRuleFrom (i : Nat) :
    List RateLimitRule → Int → Option (RateLimitRule × String)
  | [], _ => none
  | r :: rest, k =>
    match kindToRuleFrom (i + 1) rest k with
    | some v => some v
    | none => if k ∈ r.kinds then some (r, "rule-" ++ toString i) else none

/-- Modelled from the spec's words ("first rule mentioning `event.kind`
wins"): select the first rule in configuration order that mentions the
kind.  Kept for comparison against `kindToRule`, which is built from
the source. -/
def kindToRuleSpecFirst (rules : List RateLimitRule) (kind : Int) :
    Option (RateLimitRule × String) :=
  (rules.enum.find? fun p => kind ∈ p.2.kinds).map
    fun p => (p.2, "rule-" ++ toString p.1)

/-- The `(rate, burst, id, description)` tuple `Check` uses for a
kind. -/
def effectiveRule (cfg : RateLimiterCfg) (kind : Int) :
    ℚ × Int × String × String :=
  match kindToRule cfg.rules kind with
  | some (r, id) => (r.rate, r.burst, id, r.description)
  | none => (cfg.defaultRate, cfg.defaultBurst, "default", "default")

/-- Same, under the spec's first-rule-wins selection. -/
def effectiveRuleSpecFirst (cfg : RateLimiterCfg) (kind : Int) :
    ℚ × Int × String × String :=
  match kindToRuleSpecFirst cfg.rules kind with
  | some (r, id) => (r.rate, r.burst, id, r.description)
  | none => (cfg.defaultRate, cfg.defaultBurst, "default", "default")

/-- The subject keys derived from the `by` mode (skipping empty
subjects). -/
def userKeys (cfg : RateLimiterCfg) (ev : NEvent) (remoteIP : String) :
    List String :=
  match cfg.rateBy with
  | RateBy.ip => if remoteIP ≠ "" then ["ip:" ++ remoteIP] else []
  | RateBy.pubkey => if ev.pubkey ≠ "" then ["pk:" ++ ev.pubkey] else []
  | RateBy.both =>
    (if remoteIP ≠ "" then ["ip:" ++ remoteIP] else []) ++
      (if ev.pubkey ≠ "" then ["pk:" ++ ev.pubkey] else [])

/-- `getLimiter`: cache lookup, or construct with the rule's
`(rate, burst)` and insert. -/
def getLimiter (limiters : String → Option Limiter) (key : String)
    (r : ℚ) (b : Int) : Limiter × (String → Option Limiter) :=
  match limiters key with
  | some lim => (lim, limiters)
  | none =>
    let lim := Limiter.new r b
    (lim, updFn limiters key lim)

/-- The admission loop of `Check`: ask each subject's bucket in order;
the first denial rejects.  (In Go the cached limiter is a pointer that
`Allow` mutates; here the post-`allow` limiter is written back.) -/
def rateCheckKeys (r : ℚ) (b : Int) (ruleDesc : String) (now : ℚ) :
    List String → (String → Option Limiter) →
      Result × (String → Option Limiter)
  | [], limiters => (Result.accept, limiters)
  | key :: rest, limiters =>
    let g := getLimiter limiters key r b
    let a := g.1.allow now
    let limiters2 := updFn g.2 key a.2
    if !a.1 then
      (Result.reject ("blocked: rate limit exceeded for " ++ ruleDesc), limiters2)
    else rateCheckKeys r b ruleDesc now rest limiters2

/-- `RateLimiterFilter.Check`. -/
def rateLimiterCheck (cfg : RateLimiterCfg)
    (limiters : String → Option Limiter) (now : ℚ) (ev : NEvent)
    (remoteIP : String) : Result × (String → Option Limiter) :=
  if !cfg.enabled then (Result.accept, limiters)
  else
    let eff := effectiveRule cfg ev.kind
    if eff.1 ≤ 0 then (Result.accept, limiters)
    else
      let keys := (userKeys cfg ev remoteIP).map fun u => eff.2.2.1 ++ ":" ++ u
      rateCheckKeys eff.1 eff.2.1 eff.2.2.2 now keys limiters

/-- `Check` under the spec's first-rule-wins selection (comparison
variant; identical except for the selection function). -/
def rateLimiterCheckSpecFirst (cfg : RateLimiterCfg)
    (limiters : String → Option Limiter) (now : ℚ) (ev : NEvent)
    (remoteIP : String) : Result × (String → Option Limiter) :=
  if !cfg.enabled then (Result.accept, limiters)
  else
    let eff := effectiveRuleSpecFirst cfg ev.kind
    if eff.1 ≤ 0 then (Result.accept, limiters)
    else
      let keys := (userKeys cfg ev remoteIP).map fun u => eff.2.2.1 ++ ":" ++ u
      rateCheckKeys eff.1 eff.2.1 eff.2.2.2 now keys limiters

/-- Two rules both mentioning kind 1 (both pass config validation:
rate ≥ 0, burst > 0): the first strict (`rate 1, burst 1`), the second
disabling (`rate = 0`). -/
def c2Rules : List RateLimitRule :=
  [⟨[1], 1, 1, "strict"⟩, ⟨[1], 0, 5, "off"⟩]

/-- Rate-limiter configuration with the two overlapping rules. -/
def c2Cfg : RateLimiterCfg := ⟨true, RateBy.pubkey, 10, 5, c2Rules⟩

/-- A kind-1 event from `alice`. -/
def c2Ev : NEvent := ⟨"id", "alice", 1, 0, "", []⟩

/-! ### IP parsing and canonicalisation

Go `net.ParseIP`, `IP.To4`, `IP.Mask`, `net.CIDRMask`, `IP.String` and
`IPNet.String`, as `normalizeIPWithOptionalPrefixes` uses them.  An IP
is a byte list (4-byte results are returned in Go's 16-byte 4-mapped
form, as `net.IPv4` does). -/

/-- Decimal digit value. -/
def digitVal (c : Char) : Option Nat :=
  if 48 ≤ c.toNat ∧ c.toNat ≤ 57 then some (c.toNat - 48) else none

/-- Hex digit value (0-9, a-f, A-F). -/
def hexVal (c : Char) : Option Nat :=
  if 48 ≤ c.toNat ∧ c.toNat ≤ 57 then some (c.toNat - 48)
  else if 97 ≤ c.toNat ∧ c.toNat ≤ 102 then some (c.toNat - 87)
  else if 65 ≤ c.toNat ∧ c.toNat ≤ 70 then some (c.toNat - 55)
  else none

/-- Go `dtoi`: greedy decimal prefix, capped at 0xFFFFFF; returns
`(value, consumed, ok)`. -/
def dtoiGo (n i : Nat) : List Char → Nat × Nat × Bool
  | [] => if i = 0 then (0, 0, false) else (n, i, true)
  | c :: rest =>
    match digitVal c with
    | none => if i = 0 then (0, 0, false) else (n, i, true)
    | some d =>
      let n2 := n * 10 + d
      if n2 ≥ 0xFFFFFF then (0xFFFFFF, i + 1, false)
      else dtoiGo n2 (i + 1) rest

/-- `dtoi` on a fresh input. -/
def dtoi (cs : List Char) : Nat × Nat × Bool := dtoiGo 0 0 cs

/-- Go `xtoi`: greedy hex prefix, capped at 0xFFFFFF; returns
`(value, consumed, ok)`. -/
def xtoiGo (n i : Nat) : List Char → Nat × Nat × Bool
  | [] => if i = 0 then (0, 0, false) else (n, i, true)
  | c :: rest =>
    match hexVal c with
    | none => if i = 0 then (0, 0, false) else (n, i, true)
    | some d =>
      let n2 := n * 16 + d
      if n2 ≥ 0xFFFFFF then (0, i, false)
      else xtoiGo n2 (i + 1) rest

/-- `xtoi` on a fresh input. -/
def xtoi (cs : List Char) : Nat × Nat × Bool := xtoiGo 0 0 cs

/-- Go's 4-mapped IPv6 form: the 12-byte `v4InV6Prefix`. -/
def v4InV6Pre : List Nat := [0, 0, 0, 0, 0, 0, 0, 0, 0, 0, 255, 255]

/-- Go `parseIPv4`, one dotted-decimal field at a time: each field is
0..255 decimal without leading zeros; exactly four fields and nothing
left over. -/
def parseIPv4Aux : Nat → Bool → List Char → List Nat → Option (List Nat)
  | 0, _, cs, acc => if cs = [] then some acc else none
  | Nat.succ fleft, first, cs, acc =>
    let afterDot : Option (List Char) :=
      if first then some cs
      else match cs with
        | '.' :: rest => some rest
        | _ => none
    match afterDot with
    | none => none
    | some cs1 =>
      let d := dtoi cs1
      if d.2.2 = false ∨ d.1 > 255 then none
      else if d.2.1 > 1 ∧ cs1.head? = some '0' then none
      else parseIPv4Aux fleft false (cs1.drop d.2.1) (acc ++ [d.1])

/-- `parseIPv4` (4-byte result). -/
def parseIPv4 (cs : List Char) : Option (List Nat) := parseIPv4Aux 4 true cs []

/-- Completion of `parseIPv6`: expand the `::` ellipsis to the missing
zero bytes; exactly 16 bytes must result and a `::` must stand for at
least one group. -/
def parseIPv6Finish (bytes : List Nat) (ell : Option Nat) :
    Option (List Nat) :=
  if bytes.length < 16 then
    match ell with
    | none => none
    | some e =>
      some (bytes.take e ++ List.replicate (16 - bytes.length) 0 ++ bytes.drop e)
  else if ell.isSome then none
  else some bytes

/-- The main loop of Go `parseIPv6`: hex groups separated by `:`, at
most one `::`, optionally a trailing dotted IPv4.  `fuel` only bounds
the ≤ 8 iterations. -/
def parseIPv6Loop : Nat → List Char → List Nat → Option Nat →
    Option (List Nat)
  | 0, _, _, _ => none
  | Nat.succ fuel, cs, bytes, ell =>
    let x := xtoi cs
    if x.2.2 = false ∨ x.1 > 0xFFFF then none
    else if (cs.drop x.2.1).head? = some '.' then
      if ell = none ∧ bytes.length ≠ 12 then none
      else if bytes.length + 4 > 16 then none
      else
        match parseIPv4 cs with
        | none => none
        | some quad => parseIPv6Finish (bytes ++ quad) ell
    else
      let bytes2 := bytes ++ [x.1 / 256, x.1 % 256]
      let cs2 := cs.drop x.2.1
      if cs2 = [] then parseIPv6Finish bytes2 ell
      else if cs2.head? ≠ some ':' ∨ cs2.length = 1 then none
      else
        let cs3 := cs2.tail
        if cs3.head? = some ':' then
          if ell.isSome then none
          else
            let cs4 := cs3.tail
            if cs4 = [] then parseIPv6Finish bytes2 (some bytes2.length)
            else if bytes2.length < 16 then
              parseIPv6Loop fuel cs4 bytes2 (some bytes2.length)
            else none
        else if bytes2.length < 16 then parseIPv6Loop fuel cs3 bytes2 ell
        else none

/-- Go `parseIPv6` (16-byte result). -/
def parseIPv6 (cs : List Char) : Option (List Nat) :=
  match cs with
  | ':' :: ':' :: rest =>
    if rest = [] then some (List.replicate 16 0)
    else parseIPv6Loop 9 rest [] (some 0)
  | _ => parseIPv6Loop 9 cs [] none

/-- Go `net.ParseIP` dispatch: the first `.` or `:` decides the
family; anything else fails. -/
def parseIPDispatch (orig : List Char) : List Char → Option (List Nat)
  | [] => none
  | c :: rest =>
    if c = '.' then (parseIPv4 orig).map fun q => v4InV6Pre ++ q
    else if c = ':' then parseIPv6 orig
    else parseIPDispatch orig rest

/-- `net.ParseIP` (16-byte result, or 16-byte 4-mapped for IPv4). -/
def parseIP (s : String) : Option (List Nat) :=
  parseIPDispatch s.toList s.toList

/-- `IP.To4`: 4-byte form of a 4-byte or 4-mapped 16-byte address. -/
def to4 (bs : List Nat) : Option (List Nat) :=
  if bs.length = 4 then some bs
  else if bs.length = 16 ∧ bs.take 12 = v4InV6Pre then some (bs.drop 12)
  else none

/-- One byte of a CIDR mask with `k` (0..8) leading one bits. -/
def maskByte (k : Nat) : Nat := 256 - 2 ^ (8 - k)

/-- `net.CIDRMask(ones, bits)` (bytes; `none` models Go's nil mask for
an out-of-range prefix). -/
def cidrMask (ones : Int) (bits : Nat) : Option (List Nat) :=
  if 0 ≤ ones ∧ ones ≤ (bits : Int) then
    some ((List.range (bits / 8)).map fun i => maskByte (min 8 (ones.toNat - 8 * i)))
  else none

/-- `IP.Mask`: byte-wise AND when the lengths agree (`none` is Go's nil
result). -/
def maskIP (ip : List Nat) (mask : Option (List Nat)) : Option (List Nat) :=
  match mask with
  | none => none
  | some m => if ip.length = m.length then some (List.zipWith Nat.land ip m) else none

/-- Dotted-decimal rendering of four bytes. -/
def dottedString (q : List Nat) : String :=
  String.intercalate "." (q.map toString)

/-- Lowercase hex rendering of one 16-bit group (no leading zeros). -/
def hexStr (n : Nat) : String := ⟨Nat.toDigits 16 n⟩

/-- The 16-bit groups of a 16-byte address. -/
def v6Groups : List Nat → List Nat
  | a :: b :: rest => (a * 256 + b) :: v6Groups rest
  | _ => []

/-- The leftmost longest run (≥ 2 groups) of zero groups, as
`(start, end)` in group indices; `none` when no run qualifies
(RFC 5952 `::` placement, as Go computes it). -/
def bestZeroRun (gs : List Nat) : Option (Nat × Nat) :=
  let runs := (List.range gs.length).map fun i =>
    (i, ((gs.drop i).takeWhile (· = 0)).length)
  let best := runs.foldl (fun acc p => if p.2 > acc.2 then p else acc) (0, 0)
  if best.2 ≥ 2 then some (best.1, best.1 + best.2) else none

/-- RFC 5952 rendering of a 16-byte address (Go `IP.String`, hex
branch). -/
def v6HexString (bs : List Nat) : String :=
  let gs := v6Groups bs
  match bestZeroRun gs with
  | none => String.intercalate ":" (gs.map hexStr)
  | some (s, e) =>
    String.intercalate ":" ((gs.take s).map hexStr) ++ "::" ++
      String.intercalate ":" ((gs.drop e).map hexStr)

/-- `IP.String`: dotted for 4-byte/4-mapped addresses, RFC 5952 hex for
other 16-byte ones. -/
def ipToString (bs : List Nat) : String :=
  if bs = [] then "<nil>"
  else
    match to4 bs with
    | some q => dottedString q
    | none => if bs.length = 16 then v6HexString bs else "?"

/-- `IPNet.String` for a CIDR-masked network: address `/` prefix
length; Go's nil-handling (`"<nil>"`) and its 4-mapped adjustment (the
prefix shrinks by 96 when a 16-byte network renders as dotted
IPv4). -/
def ipNetString (maskedIP : Option (List Nat)) (ones : Int) : String :=
  match maskedIP with
  | none => "<nil>"
  | some bs =>
    match to4 bs with
    | some q =>
      if bs.length = 16 then dottedString q ++ "/" ++ toString (ones - 96)
      else dottedString q ++ "/" ++ toString ones
    | none => if bs.length = 16 then v6HexString bs ++ "/" ++ toString ones else "<nil>"

/-- `normalizeIPWithOptionalPrefixes`: the per-IP cache key of the
emergency filter.  Unparseable inputs are used verbatim; a parsed
address is masked when the matching family prefix is positive, else
rendered canonically. -/
def normalizeIPWithOptionalPfx (ipStr : String) (v4Pfx v6Pfx : Int) : String :=
  match parseIP ipStr with
  | none => ipStr
  | some ip =>
    match to4 ip with
    | some v4 =>
      if v4Pfx > 0 then ipNetString (maskIP v4 (cidrMask v4Pfx 32)) v4Pfx
      else ipToString v4
    | none =>
      if v6Pfx > 0 then ipNetString (maskIP ip (cidrMask v6Pfx 128)) v6Pfx
      else ipToString ip

/-! ### Emergency admission filter (policy/emergency_filter.go) -/

/-- The `EmergencyFilter` fields `Check` reads (after `NewEmergencyFilter`
set them up from the configuration). -/
structure EmergencyCfg where
  enabled : Bool
  perIPEnabled : Bool
  perIPRate : ℚ
  perIPBurst : Int
  ipv4Pfx : Int
  ipv6Pfx : Int
deriving Repr, DecidableEq

/-- The filter's mutable state: the seen-pubkeys cache, the per-IP
bucket cache and the global new-key bucket. -/
structure EmergencyState where
  recentSeen : List String
  perIP : String → Option Limiter
  newKeyLimiter : Limiter

/-- The per-IP admission step of `Check`: canonicalise the IP, fetch or
create the bucket under that key, and ask it. -/
def perIPStep (f : EmergencyCfg) (st : EmergencyState) (now : ℚ)
    (remoteIP : String) : Bool × EmergencyState :=
  let key := normalizeIPWithOptionalPfx remoteIP f.ipv4Pfx f.ipv6Pfx
  match st.perIP key with
  | some lim =>
    let a := lim.allow now
    (a.1, { st with perIP := updFn st.perIP key a.2 })
  | none =>
    let lim := Limiter.new f.perIPRate f.perIPBurst
    let a := lim.allow now
    (a.1, { st with perIP := updFn st.perIP key a.2 })

/-- `EmergencyFilter.Check`. -/
def emergencyCheck (f : EmergencyCfg) (st : EmergencyState) (now : ℚ)
    (ev : NEvent) (remoteIP : String) : Result × EmergencyState :=
  if !f.enabled then (Result.accept, st)
  else if ev.pubkey = "" then (Result.accept, st)
  else if ev.pubkey ∈ st.recentSeen then (Result.accept, st)
  else
    let stepRes : Bool × EmergencyState :=
      if f.perIPEnabled ∧ remoteIP ≠ "" then perIPStep f st now remoteIP
      else (true, st)
    if !stepRes.1 then
      (Result.reject "blocked: emergency per-ip limit for new pubkeys exceeded",
        stepRes.2)
    else
      let g := stepRes.2.newKeyLimiter.allow now
      let st2 := { stepRes.2 with newKeyLimiter := g.2 }
      if !g.1 then
        (Result.reject "blocked: emergency global limit for new pubkeys exceeded",
          st2)
      else (Result.accept, { st2 with recentSeen := ev.pubkey :: st2.recentSeen })

/-- Scenario 7 configuration: per-IP `rate 1, burst 1`,
`ipv4-prefix 24`; permissive global bucket. -/
def c3Cfg : EmergencyCfg := ⟨true, true, 1, 1, 24, 0⟩

/-- Fresh emergency state with a permissive global bucket. -/
def c3State0 : EmergencyState := ⟨[], fun _ => none, Limiter.new 1000 1000⟩

/-- First new pubkey, from `203.0.113.1`. -/
def c3Ev1 : NEvent := ⟨"id", "pk-one", 1, 0, "", []⟩

/-- Second new pubkey, from `203.0.113.2` (same /24). -/
def c3Ev2 : NEvent := ⟨"id", "pk-two", 1, 0, "", []⟩

/-! ### Auto-ban handler (policy/autoban_filter.go) -/

/-- `RejectionStats`: the violation history of a pubkey. -/
structure RejectionStats where
  strikeCount : Nat
  firstStrikeTime : Int
deriving Repr, DecidableEq

/-- `config.AutoBanFilterConfig` (the fields `HandleRejection`
reads). -/
structure AutoBanCfg where
  enabled : Bool
  excludeFilters : List String
  maxStrikes : Int
deriving Repr, DecidableEq

/-- The handler's state: the strikes LRU, the banning-cooldown cache,
and the log of issued ban calls (each `go banUser` appends its
pubkey). -/
structure AutoBanState where
  strikes : String → Option RejectionStats
  banningCooldown : List String
  bans : List String

/-- Deletion from a string-keyed map (`cache.Remove(k)`). -/
def delFn (m : String → Option α) (k : String) : String → Option α :=
  fun x => if x = k then none else m x

/-- The strike record after one more rejection: a fresh `{1, now}`
record or an incremented existing one. -/
def nextStrikes (st : AutoBanState) (pk : String) (now : Int) :
    RejectionStats :=
  match st.strikes pk with
  | none => ⟨1, now⟩
  | some s => { s with strikeCount := s.strikeCount + 1 }

/-- `AutoBanFilter.HandleRejection`.  The Go code checks the cooldown
twice (before and after taking the lock); sequentially the two reads
coincide, so one check is modelled.  Cooldown-entry expiry (TTL
1 minute) is not modelled: every theorem about the cooldown reads as
"while the cooldown entry is live". -/
def handleRejection (cfg : AutoBanCfg) (st : AutoBanState) (now : Int)
    (ev : NEvent) (filterName : String) : AutoBanState :=
  if !cfg.enabled then st
  else if cfg.excludeFilters.length > 0 ∧ filterName ∈ cfg.excludeFilters then st
  else if ev.pubkey ∈ st.banningCooldown then st
  else if ((nextStrikes st ev.pubkey now).strikeCount : Int) ≥ cfg.maxStrikes then
    { strikes :=
        delFn (updFn st.strikes ev.pubkey (nextStrikes st ev.pubkey now)) ev.pubkey,
      banningCooldown := ev.pubkey :: st.banningCooldown,
      bans := st.bans ++ [ev.pubkey] }
  else { st with strikes := updFn st.strikes ev.pubkey (nextStrikes st ev.pubkey now) }

/-- Fold a sequence of rejections (time, event, rejecting filter name)
through the handler. -/
def runRejections (cfg : AutoBanCfg) :
    List (Int × NEvent × String) → AutoBanState → AutoBanState
  | [], st => st
  | (now, ev, fn) :: rest, st =>
    runRejections cfg rest (handleRejection cfg st now ev fn)

/-- Auto-ban configuration for the witness: `max-strikes = 3`, nothing
excluded. -/
def c4Cfg : AutoBanCfg := ⟨true, [], 3⟩

/-- `carol` already has two strikes. -/
def c4State : AutoBanState :=
  ⟨fun x => if x = "carol" then some ⟨2, 0⟩ else none, [], []⟩

/-- A rejected event from `carol`. -/
def carolEv : NEvent := ⟨"id", "carol", 1, 0, "", []⟩

/-! ### Ban store (store/store.go, BadgerStore) -/

/-- The key namespace of ban records. -/
def banPfx : String := "ban:"

/-- The store's key set (values are empty; presence within TTL is the
whole record — expiry is outside the modelled window). -/
structure BadgerStore where
  keys : List String
deriving Repr, DecidableEq

/-- `BadgerStore.IsAuthorBanned`: key presence under `ban:<pubkey>`,
with the pubkey used verbatim. -/
def isAuthorBanned (s : BadgerStore) (pubkey : String) : Bool :=
  (banPfx ++ pubkey) ∈ s.keys

/-- `BadgerStore.BanAuthor`: upsert of `ban:<pubkey>`, with the pubkey
used verbatim. -/
def banAuthor (s : BadgerStore) (pubkey : String) : BadgerStore :=
  ⟨(banPfx ++ pubkey) :: s.keys⟩

/-- A pure store as the filter's collaborator (never fails). -/
def storeFn (s : BadgerStore) : String → Except String Bool :=
  fun pk => Except.ok (isAuthorBanned s pk)

/-! ### Banned-author stage (policy/banned_author_filter.go) -/

/-- `config.BannedAuthorFilterConfig`. -/
structure BannedAuthorCfg where
  checkNIP26 : Bool
deriving Repr, DecidableEq

/-- go-nostr `Tags.Find`: the first tag with at least two elements
whose name matches exactly. -/
def findTag (tags : List (List String)) (key : String) : Option (List String) :=
  tags.find? fun t => decide (2 ≤ t.length) && t.head? == some key

/-- `isBanned`: lower-case the pubkey, consult the cache, on a miss ask
the store (the single-flight group makes this one call; sequentially it
is exactly one), cache a successful answer, propagate errors without
caching. -/
def isBannedM (store : String → Except String Bool)
    (cache : String → Option Bool) (pubkey : String) :
    Except String (Bool × (String → Option Bool)) :=
  let normalizedPubkey := strToLower pubkey
  match cache normalizedPubkey with
  | some b => Except.ok (b, cache)
  | none =>
    match store normalizedPubkey with
    | Except.error e => Except.error e
    | Except.ok b => Except.ok (b, updFn cache normalizedPubkey b)

/-- `BannedAuthorFilter.Check`.  The NIP-26 validator (Schnorr
signature verification, an external cryptographic collaborator) is a
parameter returning the delegator pubkey or an error. -/
def bannedAuthorCheck (store : String → Except String Bool)
    (validate : NEvent → Except String String) (cfg : BannedAuthorCfg)
    (cache : String → Option Bool) (ev : Option NEvent) :
    Result × (String → Option Bool) :=
  match ev with
  | none => (Result.reject "blocked: invalid event", cache)
  | some ev =>
    match isBannedM store cache ev.pubkey with
    | Except.error _ => (Result.reject "internal: verification error", cache)
    | Except.ok (banned, cache1) =>
      if banned then
        (Result.reject ("blocked: author " ++ ev.pubkey ++ " is banned"), cache1)
      else if cfg.checkNIP26 then
        match findTag ev.tags "delegation" with
        | none => (Result.accept, cache1)
        | some _ =>
          match validate ev with
          | Except.error e =>
            (Result.reject ("blocked: invalid delegation: " ++ e), cache1)
          | Except.ok delegator =>
            if delegator ≠ "" then
              match isBannedM store cache1 delegator with
              | Except.error _ =>
                (Result.reject "internal: verification error", cache1)
              | Except.ok (b2, cache2) =>
                if b2 then
                  (Result.reject
                    ("blocked: delegator " ++ delegator ++ " is banned"), cache2)
                else (Result.accept, cache2)
            else (Result.accept, cache1)
      else (Result.accept, cache1)

/-! ### Size stage (policy/size_filter.go) -/

/-- `config.SizeRule`. -/
structure SizeRule where
  kinds : List Int
  maxSize : Int
  description : String
deriving Repr, DecidableEq

/-- `config.SizeFilterConfig`. -/
structure SizeCfg where
  defaultMaxSize : Int
  rules : List SizeRule
deriving Repr, DecidableEq

/-- The kind map of `NewSizeFilter` (forward iteration with map
overwrite, like the rate limiter's). -/
def sizeKindToRule (rules : List SizeRule) : Int → Option SizeRule :=
  rules.foldl (fun m r => fun k => if k ∈ r.kinds then some r else m k)
    fun _ => none

/-- The `(max-size, description)` pair `Check` uses for a kind. -/
def sizeMaxFor (cfg : SizeCfg) (kind : Int) : Int × String :=
  match sizeKindToRule cfg.rules kind with
  | some rule => (rule.maxSize, rule.description)
  | none => (cfg.defaultMaxSize, "default event")

/-- `SizeFilter.Check`.  `json.Marshal` is a parameter
(`none` modelling a marshal failure); the size is the byte length of
the serialisation. -/
def sizeCheck (marshal : NEvent → Option String) (cfg : SizeCfg)
    (ev : NEvent) : Result :=
  if (sizeMaxFor cfg ev.kind).1 = 0 then Result.accept
  else
    match marshal ev with
    | none => Result.reject "internal: failed to process event"
    | some raw =>
      if (raw.utf8ByteSize : Int) > (sizeMaxFor cfg ev.kind).1 then
        Result.reject "blocked: event size exceeds limit"
      else Result.accept

/-! ### NIP-13 proof of work (pkg/adresu-kit/nip/13_pow.go) -/

/-- Leading zero bits contributed by one hex digit: 4 for `0`,
otherwise `bits.LeadingZeros8(val << 4)`. -/
def nibbleLeadingZeros (v : Nat) : Nat :=
  if v = 0 then 4
  else if v ≥ 8 then 0
  else if v ≥ 4 then 1
  else if v ≥ 2 then 2
  else 3

/-- `CountLeadingZeroBits` over the hex characters: 4 per leading `0`,
the first non-zero digit contributes its own leading zeros and stops
the count, a non-hex character stops it at once. -/
def countLeadingZeroBitsList : List Char → Nat
  | [] => 0
  | c :: rest =>
    match hexVal c with
    | none => 0
    | some 0 => 4 + countLeadingZeroBitsList rest
    | some v => nibbleLeadingZeros v

/-- `CountLeadingZeroBits` on a string. -/
def countLeadingZeroBits (s : String) : Nat :=
  countLeadingZeroBitsList s.toList

/-- The white space set of `strings.TrimSpace` (ASCII part plus NEL and
NBSP, the Latin-1 `unicode.IsSpace` cases). -/
def isSpaceGo (c : Char) : Bool :=
  c == ' ' || c == '\t' || c == '\n' || c.toNat == 11 || c.toNat == 12 ||
    c == '\r' || c.toNat == 0x85 || c.toNat == 0xA0

/-- `strings.TrimSpace`. -/
def trimSpace (s : String) : String :=
  ⟨((s.toList.dropWhile isSpaceGo).reverse.dropWhile isSpaceGo).reverse⟩

/-- Digit-string value; `none` when empty or non-digit. -/
def digitsVal (l : List Char) : Option Nat :=
  if l = [] then none else go 0 l
where
  go (acc : Nat) : List Char → Option Nat
    | [] => some acc
    | c :: rest =>
      match digitVal c with
      | none => none
      | some d => go (acc * 10 + d) rest

/-- `strconv.Atoi` (base 10, optional sign; the int64 range check is
not modelled — nonce difficulties are tiny). -/
def atoi (s : String) : Option Int :=
  match s.toList with
  | [] => none
  | '+' :: rest => (digitsVal rest).map Int.ofNat
  | '-' :: rest => (digitsVal rest).map fun n => -(n : Int)
  | l => (digitsVal l).map Int.ofNat

/-- go-nostr `Tags.FindLast`: the last tag with at least two elements
whose name matches exactly. -/
def findTagLast (tags : List (List String)) (key : String) :
    Option (List String) :=
  tags.reverse.find? fun t => decide (2 ≤ t.length) && t.head? == some key

/-- `nip.IsPoWValid`: trivially valid at non-positive difficulty;
otherwise the last `nonce` tag must have a third element whose value
`claimed` satisfies `claimed ≥ minDifficulty`, and the id's
leading-zero count must reach `claimed` itself. -/
def isPoWValid (ev : NEvent) (minDifficulty : Int) : Bool :=
  if minDifficulty ≤ 0 then true
  else
    match findTagLast ev.tags "nonce" with
    | none => false
    | some nonceTag =>
      if nonceTag.length < 3 then false
      else
        match atoi (trimSpace (nonceTag.getD 2 "")) with
        | none => false
        | some claimed =>
          if claimed < minDifficulty then false
          else decide ((countLeadingZeroBits ev.id : Int) ≥ claimed)

/-- Modelled from the spec: "valid at difficulty d when that count is
≥ d and the event carries a `[\"nonce\", <nonce>, <claimed d>]` tag
with claimed d ≥ d" — the claim's proof-of-work predicate, kept for
comparison with `isPoWValid` from the source. -/
def isPoWValidSpec (ev : NEvent) (d : Int) : Bool :=
  decide ((countLeadingZeroBits ev.id : Int) ≥ d) &&
    ev.tags.any fun t =>
      decide (3 ≤ t.length) && t.head? == some "nonce" &&
        (match atoi (trimSpace (t.getD 2 "")) with
         | none => false
         | some claimed => decide (claimed ≥ d))

/-! ### Ephemeral-chat stage
(pkg/adresu-kit/policy/ephemeral_chat_filter.go).  `unicode.IsLetter` /
`IsUpper` are modelled on ASCII letters (the witness inputs are
ASCII). -/

/-- `config.EphemeralChatFilterConfig` (fields `Match` reads). -/
structure EphemeralChatCfg where
  enabled : Bool
  kinds : List Int
  minDelay : ℚ
  maxCapsRatio : ℚ
  minLettersForCapsCheck : Int
  maxRepeatChars : Nat
  maxWordLength : Nat
  blockZalgo : Bool
  rateLimitRate : ℚ
  rateLimitBurst : Int
  requiredPoWOnLimit : Int
deriving Repr, DecidableEq

/-- A `FilterResult`: allowed flag plus machine reason (the Go reasons
interpolate numbers; the stable stem is kept). -/
structure FilterRes where
  allowed : Bool
  reason : String
deriving Repr, DecidableEq

/-- The chat filter's state: last-seen times and per-pubkey buckets. -/
structure ChatState where
  lastSeen : String → Option ℚ
  limiters : String → Option Limiter

/-- Gate (a): the inter-message delay check denies. -/
def chatDelayDenied (cfg : EphemeralChatCfg) (st : ChatState) (now : ℚ)
    (pk : String) : Bool :=
  if cfg.minDelay > 0 then
    match st.lastSeen pk with
    | some last => decide (now - last < cfg.minDelay)
    | none => false
  else false

/-- Letter and uppercase-letter counts (ASCII model of
`unicode.IsLetter` / `unicode.IsUpper`). -/
def capsCounts (content : String) : Nat × Nat :=
  content.toList.foldl
    (fun acc c =>
      if isUpperAscii c || isLowerAscii c then
        (acc.1 + 1, if isUpperAscii c then acc.2 + 1 else acc.2)
      else acc)
    (0, 0)

/-- Gate (b): the caps-ratio check denies. -/
def chatCapsDenied (cfg : EphemeralChatCfg) (content : String) : Bool :=
  if cfg.maxCapsRatio > 0 then
    let lc := capsCounts content
    let minLetters : Int :=
      if cfg.minLettersForCapsCheck ≤ 0 then 20 else cfg.minLettersForCapsCheck
    if (lc.1 : Int) > minLetters then
      decide (mkRat lc.2 lc.1 > cfg.maxCapsRatio)
    else false
  else false

/-- The scan of gate (c): a run of `maxR` identical adjacent runes. -/
def repeatScan (maxR : Nat) : Nat → Char → List Char → Bool
  | _, _, [] => false
  | cnt, prev, c :: rest =>
    let cnt2 := if c = prev then cnt + 1 else 1
    if cnt2 ≥ maxR then true else repeatScan maxR cnt2 c rest

/-- Gate (c): the repeated-characters check denies. -/
def chatRepeatDenied (cfg : EphemeralChatCfg) (content : String) : Bool :=
  if cfg.maxRepeatChars > 0 then
    let runes := content.toList
    if runes.length ≥ cfg.maxRepeatChars then
      match runes with
      | [] => false
      | c :: rest => repeatScan cfg.maxRepeatChars 1 c rest
    else false
  else false

/-- `\s` of the compiled word regex (`\S{n,}`): `[\t\n\f\r ]`. -/
def isRegexSpace (c : Char) : Bool :=
  c == '\t' || c == '\n' || c.toNat == 12 || c == '\r' || c == ' '

/-- Longest whitespace-free run. -/
def longestNonSpaceRun : List Char → Nat → Nat → Nat
  | [], cur, best => max cur best
  | c :: rest, cur, best =>
    if isRegexSpace c then longestNonSpaceRun rest 0 (max cur best)
    else longestNonSpaceRun rest (cur + 1) best

/-- Gate (d): the word-length regex `\S{n,}` matches. -/
def chatWordDenied (cfg : EphemeralChatCfg) (content : String) : Bool :=
  if cfg.maxWordLength > 0 then
    decide (longestNonSpaceRun content.toList 0 0 ≥ cfg.maxWordLength)
  else false

/-- A combining-mark code point of the zalgo regex's five ranges. -/
def isZalgoChar (c : Char) : Bool :=
  (0x300 ≤ c.toNat && c.toNat ≤ 0x36F) ||
    (0x1AB0 ≤ c.toNat && c.toNat ≤ 0x1AFF) ||
    (0x1DC0 ≤ c.toNat && c.toNat ≤ 0x1DFF) ||
    (0x20D0 ≤ c.toNat && c.toNat ≤ 0x20FF) ||
    (0xFE20 ≤ c.toNat && c.toNat ≤ 0xFE2F)

/-- Gate (e): the zalgo check denies. -/
def chatZalgoDenied (cfg : EphemeralChatCfg) (content : String) : Bool :=
  cfg.blockZalgo && content.toList.any isZalgoChar

/-- `EphemeralChatFilter.Match`. -/
def ephemeralMatch (cfg : EphemeralChatCfg) (st : ChatState) (now : ℚ)
    (ev : NEvent) : FilterRes × ChatState :=
  if !(cfg.enabled && decide (ev.kind ∈ cfg.kinds)) then
    (⟨true, "filter_disabled_or_kind_not_matched"⟩, st)
  else if chatDelayDenied cfg st now ev.pubkey then
    (⟨false, "posting_too_frequently"⟩, st)
  else
    let st1 :=
      if cfg.minDelay > 0 then
        { st with lastSeen := updFn st.lastSeen ev.pubkey now }
      else st
    if chatCapsDenied cfg ev.content then (⟨false, "excessive_caps"⟩, st1)
    else if chatRepeatDenied cfg ev.content then
      (⟨false, "excessive_char_repetition"⟩, st1)
    else if chatWordDenied cfg ev.content then (⟨false, "word_too_long"⟩, st1)
    else if chatZalgoDenied cfg ev.content then (⟨false, "zalgo_text_detected"⟩, st1)
    else
      let g := getLimiter st1.limiters ev.pubkey cfg.rateLimitRate cfg.rateLimitBurst
      let a := g.1.allow now
      let st2 := { st1 with limiters := updFn g.2 ev.pubkey a.2 }
      if a.1 then (⟨true, "rate_limit_ok"⟩, st2)
      else if isPoWValid ev cfg.requiredPoWOnLimit then
        (⟨true, "rate_limit_bypassed_by_pow"⟩, st2)
      else (⟨false, "rate_limit_exceeded"⟩, st2)

/-- Chat configuration for C8: everything but the bucket disabled, the
bucket (`rate 0, burst 0`) always denying, `required-pow-on-limit
= 5`. -/
def c8Cfg : EphemeralChatCfg := ⟨true, [42], 0, 0, 0, 0, 0, false, 0, 0, 5⟩

/-- Fresh chat state. -/
def c8State0 : ChatState := ⟨fun _ => none, fun _ => none⟩

/-- A chat event whose id has 8 leading zero bits and whose nonce tag
claims difficulty 10. -/
def c8Ev : NEvent := ⟨"00f7", "pk", 42, 0, "hi", [["nonce", "x", "10"]]⟩

/-- The same event claiming difficulty 8 (a fully valid PoW at
required difficulty 5). -/
def c8EvOk : NEvent := ⟨"00f7", "pk", 42, 0, "hi", [["nonce", "x", "8"]]⟩

/-! ## Theorems -/

/-- A repost classification only happens for kinds 1, 6, 16. -/
theorem isRepostNIP18_kinds {cfg : RepostAbuseCfg} {ev : NEvent}
    (h : (isRepostNIP18 cfg ev).1 = true) :
    ev.kind = 1 ∨ ev.kind = 6 ∨ ev.kind = 16 := by
  unfold isRepostNIP18 at h
  split_ifs at h with h6 h16 h1 hq
  · exact Or.inr (Or.inl h6)
  · exact Or.inr (Or.inr h16)
  · exact Or.inl h1

/-- Core enforcement lemma: with the filter enabled and the event
classified as a repost, when the post-reset total has reached
`minEvents` the verdict is a rejection exactly when the predictive
ratio reaches `maxRatio`. -/
theorem repostCheck_reject_iff (cfg : RepostAbuseCfg)
    (stats : String → Option UserActivityStats) (now : Int) (ev : NEvent)
    (hen : cfg.enabled = true)
    (hrep : (isRepostNIP18 cfg ev).1 = true)
    (htot : ((repostEffStats cfg stats now ev).originalPosts +
        (repostEffStats cfg stats now ev).reposts : Int) ≥ cfg.minEvents) :
    ((repostAbuseCheck cfg stats now ev).1 ≠ Result.accept ↔
      predictedRatio (repostEffStats cfg stats now ev) ≥ cfg.maxRatio) := by
  have hk' : ¬(ev.kind ≠ 1 ∧ ev.kind ≠ 6 ∧ ev.kind ≠ 16) := by
    rcases isRepostNIP18_kinds hrep with h | h | h <;> simp [h]
  unfold repostEffStats at htot
  by_cases hr : predictedRatio
      (softReset cfg now ((stats ev.pubkey).getD ⟨0, 0, 0⟩)) ≥ cfg.maxRatio
  · simp only [repostAbuseCheck, hen, Bool.not_true, Bool.false_eq_true,
      if_false, if_neg hk', hrep, decide_eq_true htot, decide_eq_true hr,
      Bool.and_self, Bool.true_and, Bool.and_true, if_true]
    simpa [repostEffStats] using hr
  · simp only [repostAbuseCheck, hen, Bool.not_true, Bool.false_eq_true,
      if_false, if_neg hk', hrep, decide_eq_true htot,
      decide_eq_false hr, Bool.and_self, Bool.true_and, Bool.and_true,
      Bool.and_false, if_false]
    simpa [repostEffStats] using hr

/-- Below `minEvents` (post-reset) every event is accepted by the
repost filter; rejection additionally requires repost classification. -/
theorem repostCheck_accept_below_min (cfg : RepostAbuseCfg)
    (stats : String → Option UserActivityStats) (now : Int) (ev : NEvent)
    (htot : ((repostEffStats cfg stats now ev).originalPosts +
        (repostEffStats cfg stats now ev).reposts : Int) < cfg.minEvents) :
    (repostAbuseCheck cfg stats now ev).1 = Result.accept := by
  unfold repostEffStats at htot
  have hd : decide (((softReset cfg now
      ((stats ev.pubkey).getD ⟨0, 0, 0⟩)).originalPosts +
      (softReset cfg now ((stats ev.pubkey).getD ⟨0, 0, 0⟩)).reposts : Int) ≥
        cfg.minEvents) = false := decide_eq_false (by omega)
  unfold repostAbuseCheck
  split_ifs <;> simp [hd]

unseal Rat.inv Rat.mul Rat.add Rat.sub in
/-- Claim C1: with the repost filter enabled, for every author whose
post-reset recorded stats reach `min-events`, an incoming repost is
rejected iff `(reposts+1)/(originals+reposts+1) ≥ max-ratio` (clamped
into [0,1] by the constructor); any event arriving while the total is
still below `min-events` is accepted; and with `max-ratio = 0.50`,
`min-events = 4`, four originals then reposts of kinds 6, 16, 6 are
accepted and the fourth repost (kind 16) is rejected. -/
theorem c1_repost_predictive_ratio :
    (∀ (cfg : RepostAbuseCfg) (stats : String → Option UserActivityStats)
        (now : Int) (ev : NEvent),
      cfg.enabled = true →
      (isRepostNIP18 (newRepostAbuseFilter cfg) ev).1 = true →
      ((repostEffStats (newRepostAbuseFilter cfg) stats now ev).originalPosts +
          (repostEffStats (newRepostAbuseFilter cfg) stats now ev).reposts : Int) ≥
        (newRepostAbuseFilter cfg).minEvents →
      ((repostAbuseCheck (newRepostAbuseFilter cfg) stats now ev).1 ≠ Result.accept ↔
        predictedRatio (repostEffStats (newRepostAbuseFilter cfg) stats now ev) ≥
          (newRepostAbuseFilter cfg).maxRatio)) ∧
    (∀ (cfg : RepostAbuseCfg) (stats : String → Option UserActivityStats)
        (now : Int) (ev : NEvent),
      ((repostEffStats (newRepostAbuseFilter cfg) stats now ev).originalPosts +
          (repostEffStats (newRepostAbuseFilter cfg) stats now ev).reposts : Int) <
        (newRepostAbuseFilter cfg).minEvents →
      (repostAbuseCheck (newRepostAbuseFilter cfg) stats now ev).1 = Result.accept) ∧
    repostRunSeq repostScenarioCfg (fun _ => none) repostScenarioEvents =
      [Result.accept, Result.accept, Result.accept, Result.accept,
       Result.accept, Result.accept, Result.accept,
       Result.reject repostRejectMsg] := by
  refine ⟨?_, ?_, ?_⟩
  · intro cfg stats now ev hen hrep htot
    exact repostCheck_reject_iff (newRepostAbuseFilter cfg) stats now ev hen hrep htot
  · intro cfg stats now ev htot
    exact repostCheck_accept_below_min (newRepostAbuseFilter cfg) stats now ev htot
  · decide

unseal Rat.inv Rat.mul Rat.add Rat.sub in
/-- Witness for C1: with recorded stats 4 originals / 3 reposts for
`bob`, a fourth repost is rejected (ratio 4/8 = 0.50 ≥ 0.50); with no
recorded stats a repost is accepted (total 0 < 4). -/
theorem c1_repost_predictive_ratio_witness :
    (repostAbuseCheck (newRepostAbuseFilter ⟨true, 1/2, 4, 0, true, true⟩)
        (fun x => if x = "bob" then some ⟨4, 3, 7⟩ else none) 0 bobRepost16).1 ≠
      Result.accept ∧
    (repostAbuseCheck (newRepostAbuseFilter ⟨true, 1/2, 4, 0, true, true⟩)
        (fun _ => none) 0 bobRepost16).1 = Result.accept :=
  ⟨(c1_repost_predictive_ratio.1 ⟨true, 1/2, 4, 0, true, true⟩
      (fun x => if x = "bob" then some ⟨4, 3, 7⟩ else none) 0 bobRepost16
      rfl (by decide) (by decide)).mpr (by decide),
   c1_repost_predictive_ratio.2.1 ⟨true, 1/2, 4, 0, true, true⟩
      (fun _ => none) 0 bobRepost16 (by decide)⟩

/-- A character case-folds to `q` exactly when it is `q` or `Q`. -/
theorem charFoldEq_q_iff (c : Char) :
    charFoldEq c 'q' = true ↔ c = 'q' ∨ c = 'Q' := by
  constructor
  · intro h
    simp only [charFoldEq, isUpperAscii, Bool.or_eq_true, Bool.and_eq_true,
      beq_iff_eq, decide_eq_true_eq] at h
    rcases h with (h | ⟨⟨h1, h2⟩, h3⟩) | ⟨⟨h1, h2⟩, h3⟩
    · exact Or.inl h
    · right
      have hq : ('q').toNat = 113 := rfl
      have : c.toNat = 81 := by omega
      exact Char.eq_of_val_eq (UInt32.ext this)
    · have : ('q').toNat = 113 := rfl
      omega
  · rintro (rfl | rfl) <;> decide

/-- Constructor injectivity for `String`. -/
theorem stringMk_inj (a b : List Char) : (String.mk a = String.mk b) ↔ a = b :=
  ⟨fun h => by injection h, fun h => by rw [h]⟩

/-- A string case-fold-equals `"q"` exactly when it is `"q"` or
`"Q"`. -/
theorem stringEqualFold_q_iff (x : String) :
    stringEqualFold x "q" = true ↔ x = "q" ∨ x = "Q" := by
  obtain ⟨l⟩ := x
  have hq : ("q" : String) = ⟨['q']⟩ := rfl
  have hQ : ("Q" : String) = ⟨['Q']⟩ := rfl
  rw [hq, hQ]
  show listFoldEq l ['q'] = true ↔ _
  match l with
  | [] =>
    rw [stringMk_inj, stringMk_inj]
    simp [listFoldEq]
  | [c] =>
    rw [stringMk_inj, stringMk_inj]
    simp only [listFoldEq, Bool.and_true, List.cons.injEq, and_true]
    exact charFoldEq_q_iff c
  | c :: d :: t =>
    rw [stringMk_inj, stringMk_inj]
    simp [listFoldEq]

/-- `hasTag ev "q"` holds exactly when some tag starts with `"q"` or
`"Q"`. -/
theorem hasTag_q_iff (ev : NEvent) :
    hasTag ev "q" = true ↔
      ∃ t ∈ ev.tags, t.head? = some "q" ∨ t.head? = some "Q" := by
  unfold hasTag
  rw [List.any_eq_true]
  constructor
  · rintro ⟨t, ht, hp⟩
    refine ⟨t, ht, ?_⟩
    cases t with
    | nil => simp at hp
    | cons x rest =>
      rcases (stringEqualFold_q_iff x).mp hp with h | h <;> simp [h]
  · rintro ⟨t, ht, hp⟩
    refine ⟨t, ht, ?_⟩
    cases t with
    | nil => simp at hp
    | cons x rest =>
      simp only [List.head?_cons, Option.some.injEq] at hp
      exact (stringEqualFold_q_iff x).mpr hp

/-- On kind-1 events the repost flag equals the `q`-tag test conjoined
with the NIP-21 content condition. -/
theorem isRepost_kind1_eq (cfg : RepostAbuseCfg) (ev : NEvent)
    (h1 : ev.kind = 1) :
    (isRepostNIP18 cfg ev).1 =
      (hasTag ev "q" &&
        (!cfg.requireNIP21InQuote || contentHasNIP21Ref ev.content)) := by
  simp only [isRepostNIP18, h1]
  norm_num
  by_cases ha : hasTag ev "q" = true
  · by_cases hc : (cfg.requireNIP21InQuote = false ∨
        contentHasNIP21Ref ev.content = true)
    · rw [if_pos ⟨ha, hc⟩, ha]
      rcases hc with hc | hc <;> simp [hc]
    · rw [if_neg (fun h => hc h.2)]
      push_neg at hc
      obtain ⟨hc1, hc2⟩ := hc
      have hcv : cfg.requireNIP21InQuote = true := by
        cases hv : cfg.requireNIP21InQuote
        · exact absurd hv hc1
        · rfl
      have hnv : contentHasNIP21Ref ev.content = false := by
        cases hv : contentHasNIP21Ref ev.content
        · rfl
        · exact absurd hv hc2
      simp [ha, hcv, hnv]
  · rw [if_neg (fun h => ha h.1)]
    have hav : hasTag ev "q" = false := by
      cases hv : hasTag ev "q"
      · rfl
      · exact absurd hv ha
    simp [hav]

/-- Claim C7 (amended): the `q` tag-name comparison in quote-repost
classification uses `strings.EqualFold`, i.e. it is case-insensitive: a
kind-1 event is classified as a repost (`"quote1"`) iff some tag's
first element is `"q"` or `"Q"`, and the `require-nip21-in-quote`
content condition holds. -/
theorem c7_quote_tag_fold_amended :
    ∀ (cfg : RepostAbuseCfg) (ev : NEvent), ev.kind = 1 →
      ((isRepostNIP18 cfg ev).1 = true ↔
        ((∃ t ∈ ev.tags, t.head? = some "q" ∨ t.head? = some "Q") ∧
          (cfg.requireNIP21InQuote = false ∨
            contentHasNIP21Ref ev.content = true))) := by
  intro cfg ev h1
  rw [isRepost_kind1_eq cfg ev h1]
  simp [hasTag_q_iff, Bool.and_eq_true, Bool.or_eq_true, Bool.not_eq_true']

/-- Counterexample for C7: a kind-1 event whose only tag is named `Q`
(so no tag's first element equals `"q"` case-sensitively) is
nevertheless classified as a repost. -/
theorem c7_counterexample :
    (isRepostNIP18 cfgQloose evQupper).1 = true ∧
    (∀ t ∈ evQupper.tags, t.head? ≠ some "q") := by decide

/-- Witness for C7 (amended): the amended classification applied to the
uppercase-`Q` event. -/
theorem c7_quote_tag_fold_amended_witness :
    (isRepostNIP18 cfgQloose evQupper).1 = true :=
  (c7_quote_tag_fold_amended cfgQloose evQupper (by decide)).mpr (by decide)

/-- Closed-form evaluation of `repostAbuseCheck` on its main branch. -/
theorem repostCheck_eval (cfg : RepostAbuseCfg)
    (stats : String → Option UserActivityStats) (now : Int) (ev : NEvent)
    (hen : cfg.enabled = true)
    (hk : ¬(ev.kind ≠ 1 ∧ ev.kind ≠ 6 ∧ ev.kind ≠ 16)) :
    repostAbuseCheck cfg stats now ev =
      ((if ((isRepostNIP18 cfg ev).1 &&
            decide (((repostEffStats cfg stats now ev).originalPosts +
              (repostEffStats cfg stats now ev).reposts : Int) ≥ cfg.minEvents) &&
            decide (predictedRatio (repostEffStats cfg stats now ev) ≥ cfg.maxRatio))
          then Result.reject repostRejectMsg else Result.accept),
        updFn stats ev.pubkey
          (if ((isRepostNIP18 cfg ev).1 &&
              decide (((repostEffStats cfg stats now ev).originalPosts +
                (repostEffStats cfg stats now ev).reposts : Int) ≥ cfg.minEvents) &&
              decide (predictedRatio (repostEffStats cfg stats now ev) ≥ cfg.maxRatio))
           then (if cfg.countRejectAsActivity then
                  { repostEffStats cfg stats now ev with lastEventTime := now }
                 else repostEffStats cfg stats now ev)
           else (if (isRepostNIP18 cfg ev).1 then
                  { repostEffStats cfg stats now ev with
                    reposts := (repostEffStats cfg stats now ev).reposts + 1,
                    lastEventTime := now }
                 else
                  { repostEffStats cfg stats now ev with
                    originalPosts := (repostEffStats cfg stats now ev).originalPosts + 1,
                    lastEventTime := now }))) := by
  unfold repostAbuseCheck
  rw [if_neg (by simp [hen]), if_neg hk]
  simp only [repostEffStats]
  by_cases hsb : ((isRepostNIP18 cfg ev).1 &&
      decide (((softReset cfg now ((stats ev.pubkey).getD ⟨0, 0, 0⟩)).originalPosts +
        (softReset cfg now ((stats ev.pubkey).getD ⟨0, 0, 0⟩)).reposts : Int) ≥
          cfg.minEvents) &&
      decide (predictedRatio (softReset cfg now ((stats ev.pubkey).getD ⟨0, 0, 0⟩)) ≥
        cfg.maxRatio)) = true
  · simp only [hsb]
    simp
  · simp only [Bool.not_eq_true] at hsb
    simp only [hsb]
    simp

/-- `NewRepostAbuseFilter` only rewrites `maxRatio`. -/
theorem newRA_countReject (cfg : RepostAbuseCfg) :
    (newRepostAbuseFilter cfg).countRejectAsActivity =
      cfg.countRejectAsActivity := rfl

/-- Claim C9 (amended): the repost filter only ever writes the event
author's entry; on a rejection the counters are those produced by the
soft reset alone (never incremented, but possibly zeroed by the reset),
with `count-reject-as-activity` controlling only whether the
last-event time advances; on an acceptance that reaches the counting
branch exactly one of the two counters is incremented. -/
theorem c9_reject_frame_amended :
    (∀ (cfg : RepostAbuseCfg) (stats : String → Option UserActivityStats)
        (now : Int) (ev : NEvent) (pk' : String), pk' ≠ ev.pubkey →
      (repostAbuseCheck (newRepostAbuseFilter cfg) stats now ev).2 pk' = stats pk') ∧
    (∀ (cfg : RepostAbuseCfg) (stats : String → Option UserActivityStats)
        (now : Int) (ev : NEvent),
      (repostAbuseCheck (newRepostAbuseFilter cfg) stats now ev).1 ≠ Result.accept →
      (repostAbuseCheck (newRepostAbuseFilter cfg) stats now ev).2 ev.pubkey =
        some (if cfg.countRejectAsActivity then
            { repostEffStats (newRepostAbuseFilter cfg) stats now ev with
              lastEventTime := now }
          else repostEffStats (newRepostAbuseFilter cfg) stats now ev)) ∧
    (∀ (cfg : RepostAbuseCfg) (stats : String → Option UserActivityStats)
        (now : Int) (ev : NEvent),
      cfg.enabled = true → (ev.kind = 1 ∨ ev.kind = 6 ∨ ev.kind = 16) →
      (repostAbuseCheck (newRepostAbuseFilter cfg) stats now ev).1 = Result.accept →
      (repostAbuseCheck (newRepostAbuseFilter cfg) stats now ev).2 ev.pubkey =
        some (if (isRepostNIP18 (newRepostAbuseFilter cfg) ev).1 then
            { repostEffStats (newRepostAbuseFilter cfg) stats now ev with
              reposts := (repostEffStats (newRepostAbuseFilter cfg) stats now ev).reposts + 1,
              lastEventTime := now }
          else
            { repostEffStats (newRepostAbuseFilter cfg) stats now ev with
              originalPosts :=
                (repostEffStats (newRepostAbuseFilter cfg) stats now ev).originalPosts + 1,
              lastEventTime := now })) := by
  refine ⟨?_, ?_, ?_⟩
  · intro cfg stats now ev pk' hpk
    unfold repostAbuseCheck
    split_ifs <;> simp [updFn, hpk]
  · intro cfg stats now ev hrej
    by_cases hen : (newRepostAbuseFilter cfg).enabled = true
    · by_cases hk : ((ev.kind ≠ 1 ∧ ev.kind ≠ 6 ∧ ev.kind ≠ 16))
      · exfalso
        apply hrej
        simp [repostAbuseCheck, hen, hk]
      · rw [repostCheck_eval (newRepostAbuseFilter cfg) stats now ev hen hk] at hrej ⊢
        by_cases hsr : ((isRepostNIP18 (newRepostAbuseFilter cfg) ev).1 &&
            decide (((repostEffStats (newRepostAbuseFilter cfg) stats now ev).originalPosts +
              (repostEffStats (newRepostAbuseFilter cfg) stats now ev).reposts : Int) ≥
                (newRepostAbuseFilter cfg).minEvents) &&
            decide (predictedRatio (repostEffStats (newRepostAbuseFilter cfg) stats now ev) ≥
              (newRepostAbuseFilter cfg).maxRatio)) = true
        · simp [updFn, hsr, newRA_countReject]
        · exfalso
          apply hrej
          simp only [Bool.not_eq_true] at hsr
          simp [hsr]
    · exfalso
      apply hrej
      simp only [Bool.not_eq_true] at hen
      simp [repostAbuseCheck, hen]
  · intro cfg stats now ev hen hkin hacc
    have hk : ¬(ev.kind ≠ 1 ∧ ev.kind ≠ 6 ∧ ev.kind ≠ 16) := by
      rcases hkin with h | h | h <;> simp [h]
    rw [repostCheck_eval (newRepostAbuseFilter cfg) stats now ev hen hk] at hacc ⊢
    by_cases hsr : ((isRepostNIP18 (newRepostAbuseFilter cfg) ev).1 &&
        decide (((repostEffStats (newRepostAbuseFilter cfg) stats now ev).originalPosts +
          (repostEffStats (newRepostAbuseFilter cfg) stats now ev).reposts : Int) ≥
            (newRepostAbuseFilter cfg).minEvents) &&
        decide (predictedRatio (repostEffStats (newRepostAbuseFilter cfg) stats now ev) ≥
          (newRepostAbuseFilter cfg).maxRatio)) = true
    · simp only [hsr, if_true] at hacc
      exact absurd hacc (by simp)
    · simp only [Bool.not_eq_true] at hsr
      simp [updFn, hsr]

unseal Rat.inv Rat.mul Rat.add Rat.sub in
/-- Counterexample for C9: with `min-events = 0`, `max-ratio = 1`,
`reset-duration = 10` and recorded stats `(5, 5, last = 1)`, a repost
at time 100 is rejected and the stored counters change from `(5, 5)`
to `(0, 0)` (the soft reset zeroes them on the rejection path). -/
theorem c9_counterexample :
    (repostAbuseCheck c9Cfg c9Stats 100 aliceRepost6).1 =
      Result.reject repostRejectMsg ∧
    (repostAbuseCheck c9Cfg c9Stats 100 aliceRepost6).2 "alice" =
      some ⟨0, 0, 1⟩ ∧
    c9Stats "alice" = some ⟨5, 5, 1⟩ := by decide

unseal Rat.inv Rat.mul Rat.add Rat.sub in
/-- Witness for C9 (amended): the rejected-event clause applied at the
counterexample input. -/
theorem c9_reject_frame_amended_witness :
    (repostAbuseCheck c9Cfg c9Stats 100 aliceRepost6).2 "alice" =
      some (if (⟨true, 1, 0, 10, false, false⟩ : RepostAbuseCfg).countRejectAsActivity then
          { repostEffStats c9Cfg c9Stats 100 aliceRepost6 with lastEventTime := 100 }
        else repostEffStats c9Cfg c9Stats 100 aliceRepost6) :=
  c9_reject_frame_amended.2.1 ⟨true, 1, 0, 10, false, false⟩ c9Stats 100
    aliceRepost6 (by decide)

/-- The construction fold agrees with its recursive restatement. -/
theorem kindToRule_eq_from (rules : List RateLimitRule) (k : Int) :
    kindToRule rules k = kindToRuleFrom 0 rules k := by
  have haux : ∀ (l : List RateLimitRule) (i : Nat)
      (m : Int → Option (RateLimitRule × String)),
      (l.enumFrom i).foldl ruleStep m k =
        match kindToRuleFrom i l k with
        | some v => some v
        | none => m k := by
    intro l
    induction l with
    | nil => intro i m; rfl
    | cons r rest ih =>
      intro i m
      show ((i, r) :: rest.enumFrom (i + 1)).foldl ruleStep m k = _
      rw [List.foldl_cons, ih (i + 1) (ruleStep m (i, r))]
      show _ = (match (match kindToRuleFrom (i + 1) rest k with
        | some v => some v
        | none => if k ∈ r.kinds then some (r, "rule-" ++ toString i) else none) with
        | some v => some v
        | none => m k)
      cases kindToRuleFrom (i + 1) rest k with
      | some v => rfl
      | none =>
        show ruleStep m (i, r) k = _
        unfold ruleStep
        by_cases hm : k ∈ r.kinds
        · simp [hm]
        · simp [hm]
  show (rules.enumFrom 0).foldl ruleStep (fun _ => none) k = _
  rw [haux rules 0 (fun _ => none)]
  cases kindToRuleFrom 0 rules k <;> rfl

/-- A kind mentioned by no rule is absent from the map. -/
theorem kindToRuleFrom_none (k : Int) (rules : List RateLimitRule)
    (h : ∀ r ∈ rules, k ∉ r.kinds) :
    ∀ i, kindToRuleFrom i rules k = none := by
  induction rules with
  | nil => intro i; rfl
  | cons r rest ih =>
    intro i
    unfold kindToRuleFrom
    rw [ih (fun r' hr' => h r' (List.mem_cons_of_mem r hr')) (i + 1)]
    rw [if_neg (h r (List.mem_cons_self r rest))]

/-- The map holds the LAST rule (in configuration order) mentioning a
kind, with its index-derived id. -/
theorem kindToRuleFrom_last (k : Int) (rules : List RateLimitRule) :
    ∀ (s i : Nat) (r : RateLimitRule),
      rules.get? i = some r → k ∈ r.kinds →
      (∀ (j : Nat) (r' : RateLimitRule), i < j → rules.get? j = some r' →
        k ∉ r'.kinds) →
      kindToRuleFrom s rules k = some (r, "rule-" ++ toString (s + i)) := by
  induction rules with
  | nil =>
    intro s i r hget
    simp at hget
  | cons r0 rest ih =>
    intro s i r hget hmem hlast
    match i with
    | 0 =>
      simp only [List.get?_cons_zero, Option.some.injEq] at hget
      subst hget
      unfold kindToRuleFrom
      have hnone : kindToRuleFrom (s + 1) rest k = none := by
        apply kindToRuleFrom_none
        intro r' hr'
        obtain ⟨j, hj⟩ := List.get?_of_mem hr'
        exact hlast (j + 1) r' (Nat.succ_pos j) (by simpa using hj)
      rw [hnone]
      simp [hmem]
    | Nat.succ n =>
      simp only [List.get?_cons_succ] at hget
      unfold kindToRuleFrom
      have hrec := ih (s + 1) n r hget hmem
        (fun j r' hj h' => hlast (j + 1) r' (by omega) (by simpa using h'))
      rw [hrec]
      show some (r, "rule-" ++ toString (s + 1 + n)) = _
      have : s + 1 + n = s + (n + 1) := by omega
      rw [this]

/-- Claim C2 (amended): when several configured rules mention
`event.kind`, the LAST such rule in configuration order wins (its rate,
burst and index-derived stable id govern the buckets); the defaults
with id `"default"` apply exactly when no rule mentions the kind; and
when the effective rate is ≤ 0 the stage accepts without touching any
bucket. -/
theorem c2_rule_selection_amended :
    (∀ (rules : List RateLimitRule) (k : Int) (i : Nat) (r : RateLimitRule),
      rules.get? i = some r → k ∈ r.kinds →
      (∀ (j : Nat) (r' : RateLimitRule), i < j → rules.get? j = some r' →
        k ∉ r'.kinds) →
      kindToRule rules k = some (r, "rule-" ++ toString i)) ∧
    (∀ (cfg : RateLimiterCfg) (k : Int),
      (∀ r ∈ cfg.rules, k ∉ r.kinds) →
      effectiveRule cfg k =
        (cfg.defaultRate, cfg.defaultBurst, "default", "default")) ∧
    (∀ (cfg : RateLimiterCfg) (limiters : String → Option Limiter) (now : ℚ)
        (ev : NEvent) (ip : String),
      (effectiveRule cfg ev.kind).1 ≤ 0 →
      rateLimiterCheck cfg limiters now ev ip = (Result.accept, limiters)) := by
  refine ⟨?_, ?_, ?_⟩
  · intro rules k i r hget hmem hlast
    rw [kindToRule_eq_from]
    simpa using kindToRuleFrom_last k rules 0 i r hget hmem hlast
  · intro cfg k h
    unfold effectiveRule
    rw [kindToRule_eq_from, kindToRuleFrom_none k cfg.rules h 0]
  · intro cfg limiters now ev ip hrate
    unfold rateLimiterCheck
    by_cases hen : cfg.enabled = true
    · simp [hen, if_pos hrate]
    · simp only [Bool.not_eq_true] at hen
      simp [hen]

unseal Rat.inv Rat.mul Rat.add Rat.sub in
/-- Counterexample for C2: with two validation-conforming rules both
mentioning kind 1 (the first `rate 1, burst 1`, the second `rate 0`),
the code selects the second rule (`rule-1`) and accepts every event on
the rate ≤ 0 fast path, while under the spec's first-rule-wins
selection the second event from the same pubkey at the same instant
would exhaust the strict bucket and be rejected. -/
theorem c2_counterexample :
    (rateLimiterCheck c2Cfg (fun _ => none) 0 c2Ev "1.1.1.1").1 =
      Result.accept ∧
    (rateLimiterCheck c2Cfg
        (rateLimiterCheck c2Cfg (fun _ => none) 0 c2Ev "1.1.1.1").2 0 c2Ev
        "1.1.1.1").1 = Result.accept ∧
    (rateLimiterCheckSpecFirst c2Cfg (fun _ => none) 0 c2Ev "1.1.1.1").1 =
      Result.accept ∧
    (rateLimiterCheckSpecFirst c2Cfg
        (rateLimiterCheckSpecFirst c2Cfg (fun _ => none) 0 c2Ev "1.1.1.1").2 0
        c2Ev "1.1.1.1").1 =
      Result.reject "blocked: rate limit exceeded for strict" ∧
    kindToRule c2Rules 1 = some (⟨[1], 0, 5, "off"⟩, "rule-1") ∧
    kindToRuleSpecFirst c2Rules 1 = some (⟨[1], 1, 1, "strict"⟩, "rule-0") := by
  decide

/-- Witness for C2 (amended): last-rule selection, default fallback and
the rate ≤ 0 fast path at concrete inputs. -/
theorem c2_rule_selection_amended_witness :
    kindToRule c2Rules 1 = some (⟨[1], 0, 5, "off"⟩, "rule-1") ∧
    effectiveRule ⟨true, RateBy.pubkey, 10, 5, []⟩ 42 =
      (10, 5, "default", "default") ∧
    rateLimiterCheck c2Cfg (fun _ => none) 0 c2Ev "1.1.1.1" =
      (Result.accept, fun _ => none) :=
  ⟨c2_rule_selection_amended.1 c2Rules 1 1 ⟨[1], 0, 5, "off"⟩ (by decide)
      (by decide)
      (by
        intro j r' hj hg
        have hlen : c2Rules.length ≤ j := by
          simp only [c2Rules, List.length]
          omega
        rw [List.get?_eq_none.mpr hlen] at hg
        exact absurd hg (by simp)),
   c2_rule_selection_amended.2.1 ⟨true, RateBy.pubkey, 10, 5, []⟩ 42
      (by intro r hr; simp at hr),
   c2_rule_selection_amended.2.2 c2Cfg (fun _ => none) 0 c2Ev "1.1.1.1"
      (by decide)⟩

/-- The per-IP step never touches the global bucket nor the seen set,
and writes only the canonical key of its IP. -/
theorem perIPStep_frame (f : EmergencyCfg) (st : EmergencyState) (now : ℚ)
    (ip : String) :
    (perIPStep f st now ip).2.newKeyLimiter = st.newKeyLimiter ∧
    (perIPStep f st now ip).2.recentSeen = st.recentSeen ∧
    (∀ k, k ≠ normalizeIPWithOptionalPfx ip f.ipv4Pfx f.ipv6Pfx →
      (perIPStep f st now ip).2.perIP k = st.perIP k) := by
  unfold perIPStep
  cases h : st.perIP (normalizeIPWithOptionalPfx ip f.ipv4Pfx f.ipv6Pfx) <;>
    exact ⟨by simp [h], by simp [h], fun k hk => by simp [h, updFn, hk]⟩

unseal Rat.inv Rat.mul Rat.add Rat.sub in
/-- Claim C3: the emergency stage accepts untouched on the fast paths
(disabled, empty pubkey, already-seen pubkey); with per-IP limiting
active, a per-IP denial rejects before the global bucket is consulted;
the pubkey enters `seen-pubkeys` iff both buckets admit; only the
canonicalised key of the event's IP is ever written in the per-IP
cache; and scenario 7 (`per-ip rate 1, burst 1, ipv4-prefix 24`)
behaves as specified. -/
theorem c3_emergency_admission :
    (∀ (f : EmergencyCfg) (st : EmergencyState) (now : ℚ) (ev : NEvent)
        (ip : String),
      (f.enabled = false ∨ ev.pubkey = "" ∨ ev.pubkey ∈ st.recentSeen) →
      emergencyCheck f st now ev ip = (Result.accept, st)) ∧
    (∀ (f : EmergencyCfg) (st : EmergencyState) (now : ℚ) (ev : NEvent)
        (ip : String),
      f.enabled = true → ev.pubkey ≠ "" → ev.pubkey ∉ st.recentSeen →
      f.perIPEnabled = true → ip ≠ "" →
      (perIPStep f st now ip).1 = false →
      emergencyCheck f st now ev ip =
        (Result.reject "blocked: emergency per-ip limit for new pubkeys exceeded",
          (perIPStep f st now ip).2) ∧
      (perIPStep f st now ip).2.newKeyLimiter = st.newKeyLimiter) ∧
    (∀ (f : EmergencyCfg) (st : EmergencyState) (now : ℚ) (ev : NEvent)
        (ip : String),
      f.enabled = true → ev.pubkey ≠ "" → ev.pubkey ∉ st.recentSeen →
      f.perIPEnabled = true → ip ≠ "" →
      (ev.pubkey ∈ (emergencyCheck f st now ev ip).2.recentSeen ↔
        ((perIPStep f st now ip).1 = true ∧
          ((perIPStep f st now ip).2.newKeyLimiter.allow now).1 = true))) ∧
    (∀ (f : EmergencyCfg) (st : EmergencyState) (now : ℚ) (ev : NEvent)
        (ip : String) (k : String),
      k ≠ normalizeIPWithOptionalPfx ip f.ipv4Pfx f.ipv6Pfx →
      (emergencyCheck f st now ev ip).2.perIP k = st.perIP k) ∧
    ((emergencyCheck c3Cfg c3State0 0 c3Ev1 "203.0.113.1").1 = Result.accept ∧
      (emergencyCheck c3Cfg
        (emergencyCheck c3Cfg c3State0 0 c3Ev1 "203.0.113.1").2 0 c3Ev2
          "203.0.113.2").1 =
        Result.reject "blocked: emergency per-ip limit for new pubkeys exceeded") := by
  refine ⟨?_, ?_, ?_, ?_, by decide⟩
  · intro f st now ev ip h
    unfold emergencyCheck
    rcases h with h | h | h
    · simp [h]
    · by_cases he : f.enabled = true
      · simp [he, h]
      · simp only [Bool.not_eq_true] at he
        simp [he]
    · by_cases he : f.enabled = true
      · by_cases hpk : ev.pubkey = ""
        · simp [he, hpk]
        · simp [he, hpk, h]
      · simp only [Bool.not_eq_true] at he
        simp [he]
  · intro f st now ev ip hen hpk hseen hper hip hdeny
    refine ⟨?_, (perIPStep_frame f st now ip).1⟩
    unfold emergencyCheck
    simp [hen, hpk, hseen, hper, hip, hdeny]
  · intro f st now ev ip hen hpk hseen hper hip
    unfold emergencyCheck
    simp only [hen, Bool.not_true, Bool.false_eq_true, if_false, if_neg hpk,
      if_neg hseen, if_pos (And.intro hper hip)]
    have hframe := (perIPStep_frame f st now ip).2.1
    by_cases hdeny : (perIPStep f st now ip).1 = true
    · by_cases hg : ((perIPStep f st now ip).2.newKeyLimiter.allow now).1 = true
      · simp [hdeny, hg]
      · rw [Bool.not_eq_true] at hg
        simp [hdeny, hg, hframe, hseen]
    · rw [Bool.not_eq_true] at hdeny
      simp [hdeny, hframe, hseen]
  · intro f st now ev ip k hk
    unfold emergencyCheck
    have hframe := (perIPStep_frame f st now ip).2.2 k hk
    by_cases h1 : f.enabled = true
    · by_cases h2 : ev.pubkey = ""
      · simp [h1, h2]
      · by_cases h3 : ev.pubkey ∈ st.recentSeen
        · simp [h1, h2, h3]
        · by_cases h4 : f.perIPEnabled = true ∧ ip ≠ ""
          · by_cases h5 : (perIPStep f st now ip).1 = true
            · by_cases h6 : ((perIPStep f st now ip).2.newKeyLimiter.allow now).1 = true
              · simp [h1, h2, h3, h4, h5, h6, hframe]
              · rw [Bool.not_eq_true] at h6
                simp [h1, h2, h3, h4, h5, h6, hframe]
            · rw [Bool.not_eq_true] at h5
              simp [h1, h2, h3, h4, h5, hframe]
          · simp only [h1, h2, h3, h4]
            simp [h2, h3, h4]
            split_ifs <;> rfl
    · rw [Bool.not_eq_true] at h1
      simp [h1]

unseal Rat.inv Rat.mul Rat.add Rat.sub in
/-- Witness for C3: the quantified clauses at the scenario inputs. -/
theorem c3_emergency_admission_witness :
    emergencyCheck ⟨false, false, 1, 1, 0, 0⟩ c3State0 0 c3Ev1 "1.2.3.4" =
      (Result.accept, c3State0) ∧
    (c3Ev2.pubkey ∈ (emergencyCheck c3Cfg
        (emergencyCheck c3Cfg c3State0 0 c3Ev1 "203.0.113.1").2 0 c3Ev2
        "203.0.113.2").2.recentSeen ↔
      ((perIPStep c3Cfg (emergencyCheck c3Cfg c3State0 0 c3Ev1 "203.0.113.1").2
          0 "203.0.113.2").1 = true ∧
        ((perIPStep c3Cfg (emergencyCheck c3Cfg c3State0 0 c3Ev1 "203.0.113.1").2
            0 "203.0.113.2").2.newKeyLimiter.allow 0).1 = true)) :=
  ⟨c3_emergency_admission.1 ⟨false, false, 1, 1, 0, 0⟩ c3State0 0 c3Ev1 "1.2.3.4"
      (Or.inl rfl),
   c3_emergency_admission.2.2.1 c3Cfg
      (emergencyCheck c3Cfg c3State0 0 c3Ev1 "203.0.113.1").2 0 c3Ev2
      "203.0.113.2" rfl (by decide) (by decide) rfl (by decide)⟩

/-- Claim C10: per-IP key canonicalisation is a total function with a
raw-string fallback — an input that does not parse as an IP address is
used verbatim as the key; for a parsed address the matching family's
prefix bitmask is applied exactly when that prefix is positive, and
otherwise the canonical string form of the address is the key.  The
closed conjuncts exercise both fallback and canonicalisation (note
`"::ffff:203.0.113.7"` and `"2001:0DB8::1"` are rewritten to canonical
forms even with no masking). -/
theorem c10_normalize_total :
    (∀ (s : String) (v4p v6p : Int), parseIP s = none →
      normalizeIPWithOptionalPfx s v4p v6p = s) ∧
    (∀ (s : String) (ip v4 : List Nat) (v4p v6p : Int),
      parseIP s = some ip → to4 ip = some v4 →
      (v4p > 0 → normalizeIPWithOptionalPfx s v4p v6p =
        ipNetString (maskIP v4 (cidrMask v4p 32)) v4p) ∧
      (¬ v4p > 0 → normalizeIPWithOptionalPfx s v4p v6p = ipToString v4)) ∧
    (∀ (s : String) (ip : List Nat) (v4p v6p : Int),
      parseIP s = some ip → to4 ip = none →
      (v6p > 0 → normalizeIPWithOptionalPfx s v4p v6p =
        ipNetString (maskIP ip (cidrMask v6p 128)) v6p) ∧
      (¬ v6p > 0 → normalizeIPWithOptionalPfx s v4p v6p = ipToString ip)) ∧
    (normalizeIPWithOptionalPfx "not an ip" 24 64 = "not an ip" ∧
      normalizeIPWithOptionalPfx "203.000.113.7" 24 64 = "203.000.113.7" ∧
      normalizeIPWithOptionalPfx "203.0.113.77" 24 0 = "203.0.113.0/24" ∧
      normalizeIPWithOptionalPfx "203.0.113.77" 0 64 = "203.0.113.77" ∧
      normalizeIPWithOptionalPfx "::ffff:203.0.113.7" 0 64 = "203.0.113.7" ∧
      normalizeIPWithOptionalPfx "2001:db8:abcd:1234::1" 24 64 =
        "2001:db8:abcd:1234::/64" ∧
      normalizeIPWithOptionalPfx "2001:0DB8::1" 24 0 = "2001:db8::1") := by
  refine ⟨?_, ?_, ?_, by decide⟩
  · intro s v4p v6p h
    unfold normalizeIPWithOptionalPfx
    rw [h]
  · intro s ip v4 v4p v6p hp h4
    constructor
    · intro hgt
      unfold normalizeIPWithOptionalPfx
      simp only [hp, h4]
      rw [if_pos hgt]
    · intro hle
      unfold normalizeIPWithOptionalPfx
      simp only [hp, h4]
      rw [if_neg hle]
  · intro s ip v4p v6p hp h4
    constructor
    · intro hgt
      unfold normalizeIPWithOptionalPfx
      simp only [hp, h4]
      rw [if_pos hgt]
    · intro hle
      unfold normalizeIPWithOptionalPfx
      simp only [hp, h4]
      rw [if_neg hle]

/-- Witness for C10: the quantified clauses at concrete addresses. -/
theorem c10_normalize_total_witness :
    normalizeIPWithOptionalPfx "not an ip" 24 64 = "not an ip" ∧
    normalizeIPWithOptionalPfx "10.0.0.1" 8 0 =
      ipNetString (maskIP [10, 0, 0, 1] (cidrMask 8 32)) 8 ∧
    normalizeIPWithOptionalPfx "::1" 24 0 =
      ipToString [0, 0, 0, 0, 0, 0, 0, 0, 0, 0, 0, 0, 0, 0, 0, 1] :=
  ⟨c10_normalize_total.1 "not an ip" 24 64 (by decide),
   (c10_normalize_total.2.1 "10.0.0.1"
      [0, 0, 0, 0, 0, 0, 0, 0, 0, 0, 255, 255, 10, 0, 0, 1] [10, 0, 0, 1] 8 0
      (by decide) (by decide)).1 (by decide),
   (c10_normalize_total.2.2.1 "::1"
      [0, 0, 0, 0, 0, 0, 0, 0, 0, 0, 0, 0, 0, 0, 0, 1] 24 0
      (by decide) (by decide)).2 (by decide)⟩

/-- The handler is a no-op for a pubkey on cooldown. -/
theorem handleRejection_cooldown_noop (cfg : AutoBanCfg) (st : AutoBanState)
    (now : Int) (ev : NEvent) (fn : String)
    (hmem : ev.pubkey ∈ st.banningCooldown) :
    handleRejection cfg st now ev fn = st := by
  unfold handleRejection
  split_ifs with h1 h2 <;> rfl

/-- One rejection step neither adds a ban for, nor removes the cooldown
entry of, a pubkey already on cooldown. -/
theorem handleRejection_invariant (cfg : AutoBanCfg) (st : AutoBanState)
    (now : Int) (ev : NEvent) (fn : String) (pk : String)
    (hmem : pk ∈ st.banningCooldown) :
    (handleRejection cfg st now ev fn).bans.count pk = st.bans.count pk ∧
    pk ∈ (handleRejection cfg st now ev fn).banningCooldown := by
  by_cases hpk : ev.pubkey = pk
  · rw [handleRejection_cooldown_noop cfg st now ev fn (hpk ▸ hmem)]
    exact ⟨rfl, hmem⟩
  · unfold handleRejection
    split_ifs with h1 h2 h3 h4
    · exact ⟨rfl, hmem⟩
    · exact ⟨rfl, hmem⟩
    · exact ⟨rfl, hmem⟩
    · refine ⟨?_, List.mem_cons_of_mem _ hmem⟩
      show (st.bans ++ [ev.pubkey]).count pk = st.bans.count pk
      rw [List.count_append]
      have hz : List.count pk [ev.pubkey] = 0 := List.count_eq_zero.mpr (by
        intro hmem2
        rw [List.mem_singleton] at hmem2
        exact hpk hmem2.symm)
      rw [hz]
      exact Nat.add_zero _
    · exact ⟨rfl, hmem⟩

/-- Claim C4: with `max-strikes = k`, the rejection that lifts a
pubkey's strike count to `k` (while it is not on cooldown) issues
exactly one ban call, deletes the strike record, and inserts a cooldown
entry; while the cooldown entry is live, further rejections for that
pubkey change nothing — over any further rejection sequence, its ban
count never grows and it stays on cooldown. -/
theorem c4_autoban_at_most_once :
    (∀ (cfg : AutoBanCfg) (st : AutoBanState) (now : Int) (ev : NEvent)
        (fn : String),
      cfg.enabled = true →
      ¬(cfg.excludeFilters.length > 0 ∧ fn ∈ cfg.excludeFilters) →
      ev.pubkey ∉ st.banningCooldown →
      ((nextStrikes st ev.pubkey now).strikeCount : Int) ≥ cfg.maxStrikes →
      (handleRejection cfg st now ev fn).bans = st.bans ++ [ev.pubkey] ∧
      (handleRejection cfg st now ev fn).strikes ev.pubkey = none ∧
      ev.pubkey ∈ (handleRejection cfg st now ev fn).banningCooldown) ∧
    (∀ (cfg : AutoBanCfg) (st : AutoBanState) (now : Int) (ev : NEvent)
        (fn : String),
      ev.pubkey ∈ st.banningCooldown → handleRejection cfg st now ev fn = st) ∧
    (∀ (cfg : AutoBanCfg) (steps : List (Int × NEvent × String))
        (st : AutoBanState) (pk : String),
      pk ∈ st.banningCooldown →
      (runRejections cfg steps st).bans.count pk = st.bans.count pk ∧
      pk ∈ (runRejections cfg steps st).banningCooldown) := by
  refine ⟨?_, handleRejection_cooldown_noop, ?_⟩
  · intro cfg st now ev fn hen hexc hmem hfire
    unfold handleRejection
    rw [if_neg (by simp [hen]), if_neg hexc, if_neg hmem, if_pos hfire]
    exact ⟨rfl, by simp [delFn], List.mem_cons_self _ _⟩
  · intro cfg steps
    induction steps with
    | nil => intro st pk hmem; exact ⟨rfl, hmem⟩
    | cons step rest ih =>
      intro st pk hmem
      obtain ⟨now, ev, fn⟩ := step
      have hstep := handleRejection_invariant cfg st now ev fn pk hmem
      have hrec := ih (handleRejection cfg st now ev fn) pk hstep.2
      exact ⟨hrec.1.trans hstep.1, hrec.2⟩

/-- Witness for C4: `carol` at two strikes with `max-strikes = 3`: the
third rejection fires exactly one ban, removes the record and starts
the cooldown; on cooldown the handler is a no-op and a further sequence
adds no bans. -/
theorem c4_autoban_at_most_once_witness :
    ((handleRejection c4Cfg c4State 1 carolEv "KindFilter").bans =
        c4State.bans ++ ["carol"] ∧
      (handleRejection c4Cfg c4State 1 carolEv "KindFilter").strikes "carol" =
        none ∧
      "carol" ∈ (handleRejection c4Cfg c4State 1 carolEv "KindFilter").banningCooldown) ∧
    handleRejection c4Cfg ⟨fun _ => none, ["carol"], ["carol"]⟩ 2 carolEv
        "KindFilter" = ⟨fun _ => none, ["carol"], ["carol"]⟩ ∧
    (runRejections c4Cfg [(2, carolEv, "KindFilter"), (3, carolEv, "SizeFilter")]
          ⟨fun _ => none, ["carol"], ["carol"]⟩).bans.count "carol" =
      (["carol"] : List String).count "carol" :=
  ⟨c4_autoban_at_most_once.1 c4Cfg c4State 1 carolEv "KindFilter" rfl
      (by decide) (by decide) (by decide),
   c4_autoban_at_most_once.2.1 c4Cfg ⟨fun _ => none, ["carol"], ["carol"]⟩ 2
      carolEv "KindFilter" (by decide),
   (c4_autoban_at_most_once.2.2 c4Cfg
      [(2, carolEv, "KindFilter"), (3, carolEv, "SizeFilter")]
      ⟨fun _ => none, ["carol"], ["carol"]⟩ "carol" (by decide)).1⟩

/-- Claim C5: internal errors fail closed.  A ban-store error on the
signer lookup makes the banned-author stage reject with
`internal: verification error` (never accept); a marshal failure makes
the size stage (when a limit applies) reject with
`internal: failed to process event`. -/
theorem c5_fail_closed :
    (∀ (store : String → Except String Bool)
        (validate : NEvent → Except String String) (cfg : BannedAuthorCfg)
        (cache : String → Option Bool) (ev : NEvent) (e : String),
      cache (strToLower ev.pubkey) = none →
      store (strToLower ev.pubkey) = Except.error e →
      (bannedAuthorCheck store validate cfg cache (some ev)).1 =
        Result.reject "internal: verification error" ∧
      (bannedAuthorCheck store validate cfg cache (some ev)).1 ≠
        Result.accept) ∧
    (∀ (marshal : NEvent → Option String) (cfg : SizeCfg) (ev : NEvent),
      marshal ev = none → (sizeMaxFor cfg ev.kind).1 ≠ 0 →
      sizeCheck marshal cfg ev =
        Result.reject "internal: failed to process event") := by
  constructor
  · intro store validate cfg cache ev e hcache hstore
    have h : bannedAuthorCheck store validate cfg cache (some ev) =
        (Result.reject "internal: verification error", cache) := by
      unfold bannedAuthorCheck isBannedM
      simp only [hcache, hstore]
    rw [h]
    exact ⟨rfl, by simp⟩
  · intro marshal cfg ev hm hmax
    unfold sizeCheck
    rw [if_neg hmax, hm]

/-- Witness for C5: a failing store rejects a concrete event; a failing
marshal rejects under the default 1024-byte limit. -/
theorem c5_fail_closed_witness :
    (bannedAuthorCheck (fun _ => Except.error "io") (fun _ => Except.ok "")
        ⟨false⟩ (fun _ => none) (some carolEv)).1 =
      Result.reject "internal: verification error" ∧
    sizeCheck (fun _ => none) ⟨1024, []⟩ carolEv =
      Result.reject "internal: failed to process event" :=
  ⟨(c5_fail_closed.1 (fun _ => Except.error "io") (fun _ => Except.ok "")
      ⟨false⟩ (fun _ => none) carolEv "io" rfl rfl).1,
   c5_fail_closed.2 (fun _ => none) ⟨1024, []⟩ carolEv rfl (by decide)⟩

/-- `Char.ofNat` round-trip on valid code points. -/
theorem charToNat_ofNat {n : Nat} (h : n.isValidChar) :
    (Char.ofNat n).toNat = n := by
  simp only [Char.ofNat, h, dite_true]
  rfl

/-- ASCII case round-trip: lowering after uppering is lowering. -/
theorem toLowerChar_toUpperChar (c : Char) :
    toLowerChar (toUpperChar c) = toLowerChar c := by
  unfold toUpperChar
  by_cases hl : isLowerAscii c = true
  · rw [if_pos hl]
    unfold isLowerAscii at hl
    simp only [Bool.and_eq_true, decide_eq_true_eq] at hl
    have hval : (c.toNat - 32).isValidChar := Or.inl (by omega)
    have htn : (Char.ofNat (c.toNat - 32)).toNat = c.toNat - 32 :=
      charToNat_ofNat hval
    unfold toLowerChar isUpperAscii
    simp only [htn]
    have hup : (decide (65 ≤ c.toNat - 32) && decide (c.toNat - 32 ≤ 90)) = true := by
      simp only [Bool.and_eq_true, decide_eq_true_eq]
      omega
    rw [if_pos hup]
    have h32 : c.toNat - 32 + 32 = c.toNat := by omega
    rw [h32]
    have hnup : (decide (65 ≤ c.toNat) && decide (c.toNat ≤ 90)) = false := by
      simp only [Bool.and_eq_false_iff, decide_eq_false_iff_not]
      omega
    rw [if_neg (by simp [hnup])]
    have hcv : c.toNat.isValidChar := Or.inl (by omega)
    exact Char.eq_of_val_eq (UInt32.ext (charToNat_ofNat hcv))
  · rw [if_neg hl]

/-- ASCII case round-trip on strings. -/
theorem strToLower_strToUpper (x : String) :
    strToLower (strToUpper x) = strToLower x := by
  obtain ⟨l⟩ := x
  show (⟨(l.map toUpperChar).map toLowerChar⟩ : String) = ⟨l.map toLowerChar⟩
  apply congrArg
  rw [List.map_map]
  exact List.map_congr_left fun c _ => toLowerChar_toUpperChar c

/-- Claim C6 (amended): the banned-author stage lower-cases the pubkey
before every store lookup, so once `ban:<lowercase(x)>` is in the
store, events authored by `x` and by `uppercase(x)` are both rejected;
but the store itself writes the pubkey verbatim on insert
(`BanAuthor` does not normalise), so a ban issued under a mixed-case
pubkey is NOT found by a later lowercase lookup. -/
theorem c6_ban_normalisation_amended :
    (∀ (s : BadgerStore) (validate : NEvent → Except String String)
        (cfg : BannedAuthorCfg) (ev : NEvent),
      isAuthorBanned s (strToLower ev.pubkey) = true →
      (bannedAuthorCheck (storeFn s) validate cfg (fun _ => none) (some ev)).1 =
        Result.reject ("blocked: author " ++ ev.pubkey ++ " is banned")) ∧
    (∀ x : String, strToLower (strToUpper x) = strToLower x) ∧
    (∀ (s : BadgerStore) (p : String), banAuthor s p = ⟨(banPfx ++ p) :: s.keys⟩) := by
  refine ⟨?_, strToLower_strToUpper, fun _ _ => rfl⟩
  intro s validate cfg ev hban
  unfold bannedAuthorCheck isBannedM
  simp only [storeFn, hban]
  rfl

/-- Counterexample for C6: `BanAuthor` stores the key verbatim: after
banning the mixed-case pubkey `Ab`, the lowercase lookup misses and the
banned-author stage accepts an event authored by `ab`. -/
theorem c6_counterexample :
    isAuthorBanned (banAuthor ⟨[]⟩ "Ab") "ab" = false ∧
    (bannedAuthorCheck (storeFn (banAuthor ⟨[]⟩ "Ab")) (fun _ => Except.ok "")
        ⟨false⟩ (fun _ => none) (some ⟨"id", "ab", 1, 0, "", []⟩)).1 =
      Result.accept ∧
    (banAuthor ⟨[]⟩ "Ab").keys = ["ban:Ab"] := by decide

/-- Witness for C6 (amended): banning `lowercase("aB")` = `"ab"` makes
the stage reject events from `aB` and from `AB`. -/
theorem c6_ban_normalisation_amended_witness :
    (bannedAuthorCheck (storeFn (banAuthor ⟨[]⟩ "ab")) (fun _ => Except.ok "")
        ⟨false⟩ (fun _ => none) (some ⟨"id", "aB", 1, 0, "", []⟩)).1 =
      Result.reject "blocked: author aB is banned" ∧
    (bannedAuthorCheck (storeFn (banAuthor ⟨[]⟩ "ab")) (fun _ => Except.ok "")
        ⟨false⟩ (fun _ => none) (some ⟨"id", "AB", 1, 0, "", []⟩)).1 =
      Result.reject "blocked: author AB is banned" :=
  ⟨c6_ban_normalisation_amended.1 (banAuthor ⟨[]⟩ "ab") (fun _ => Except.ok "")
      ⟨false⟩ ⟨"id", "aB", 1, 0, "", []⟩ (by decide),
   c6_ban_normalisation_amended.1 (banAuthor ⟨[]⟩ "ab") (fun _ => Except.ok "")
      ⟨false⟩ ⟨"id", "AB", 1, 0, "", []⟩ (by decide)⟩

/-- Claim C8 (amended): for an enabled chat event that passes the
content gates and is denied by its per-pubkey bucket, the stage accepts
iff `nip.IsPoWValid` holds at `required-pow-on-limit`: a non-positive
requirement is trivially valid; otherwise the LAST nonce tag (with ≥ 2
elements) must have a third element parsing to `claimed ≥ required`,
and the leading-zero-bit count of the id must reach `claimed` itself
(not merely the required difficulty). -/
theorem c8_pow_fallback_amended :
    ∀ (cfg : EphemeralChatCfg) (st : ChatState) (now : ℚ) (ev : NEvent),
      cfg.enabled = true → ev.kind ∈ cfg.kinds →
      chatDelayDenied cfg st now ev.pubkey = false →
      chatCapsDenied cfg ev.content = false →
      chatRepeatDenied cfg ev.content = false →
      chatWordDenied cfg ev.content = false →
      chatZalgoDenied cfg ev.content = false →
      ((getLimiter st.limiters ev.pubkey cfg.rateLimitRate
          cfg.rateLimitBurst).1.allow now).1 = false →
      (ephemeralMatch cfg st now ev).1 =
        (if isPoWValid ev cfg.requiredPoWOnLimit then
          ⟨true, "rate_limit_bypassed_by_pow"⟩
        else ⟨false, "rate_limit_exceeded"⟩) := by
  intro cfg st now ev hen hkind hdelay hcaps hrep hword hzal hlim
  unfold ephemeralMatch
  rw [if_neg (by simp [hen, hkind]), if_neg (by simp [hdelay])]
  have hlims : (if cfg.minDelay > 0 then
      { st with lastSeen := updFn st.lastSeen ev.pubkey now }
    else st).limiters = st.limiters := by
    by_cases hmd : cfg.minDelay > 0
    · rw [if_pos hmd]
    · rw [if_neg hmd]
  by_cases hmd : cfg.minDelay > 0 <;>
    · simp only [hmd, if_true, if_false]
      rw [if_neg (by simp [hcaps]), if_neg (by simp [hrep]),
        if_neg (by simp [hword]), if_neg (by simp [hzal])]
      simp only [hlim, Bool.false_eq_true, if_false]
      by_cases hpw : isPoWValid ev cfg.requiredPoWOnLimit = true
      · simp [hpw]
      · rw [Bool.not_eq_true] at hpw
        simp [hpw]

/-- Counterexample for C8: at required difficulty 5, an event whose id
has 8 leading zero bits and whose nonce tag claims 10 satisfies the
claim's predicate (count 8 ≥ 5 and claimed 10 ≥ 5), yet the code
rejects it on the bucket-denial path (it checks count ≥ claimed, and
8 < 10). -/
theorem c8_counterexample :
    isPoWValidSpec c8Ev 5 = true ∧
    isPoWValid c8Ev 5 = false ∧
    (ephemeralMatch c8Cfg c8State0 0 c8Ev).1 =
      ⟨false, "rate_limit_exceeded"⟩ := by decide

/-- Witness for C8 (amended): the amended fallback at the denied bucket
accepts a fully valid PoW (claimed 8 ≥ 5, count 8 ≥ 8) and rejects the
over-claimed one. -/
theorem c8_pow_fallback_amended_witness :
    (ephemeralMatch c8Cfg c8State0 0 c8EvOk).1 =
      ⟨true, "rate_limit_bypassed_by_pow"⟩ ∧
    (ephemeralMatch c8Cfg c8State0 0 c8Ev).1 =
      ⟨false, "rate_limit_exceeded"⟩ :=
  ⟨(c8_pow_fallback_amended c8Cfg c8State0 0 c8EvOk rfl (by decide) (by decide)
      (by decide) (by decide) (by decide) (by decide) (by decide)).trans
    (by decide),
   (c8_pow_fallback_amended c8Cfg c8State0 0 c8Ev rfl (by decide) (by decide)
      (by decide) (by decide) (by decide) (by decide) (by decide)).trans
    (by decide)⟩

